import Mathlib

/-!
# Verification of the Tinder-style simulation engine (`backend.py`)

Shallow embedding of `run_tinder_simulation` and the Jack/Jill representative
selection from `backend.py`, together with theorems settling the frozen claims.

Modelling conventions:
* user ids are `String`s; the source distinguishes groups via `user.startswith("W")`;
* Python floats are modelled as rationals (`ℚ`); the reciprocal-weight exponent
  (`weight_reciprocal`, applied as `x ** w`) is modelled as a natural-number
  exponent over `ℚ`;
* the two seeded random streams (`random.shuffle` for login orders and
  `np.random.rand()` for decision rolls) are modelled as explicit parameters
  (`shuffle : Nat → List String`, one login order per day, and
  `rolls : Nat → ℚ`, consumed via a stream index carried in the state), since
  a given seed determines both streams;
* `dict`s keyed by user id become total functions updated via `Function.update`;
  Python `set`s become `Finset String`;
* the event log (the per-day `day_records` lists concatenated by `pd.concat`)
  is returned alongside the final state.
-/

namespace DatingSim

/-- Decision outcome of processing one candidate (`"Like"` / `"Pass"` in the source). -/
inductive Decision where
  | like
  | pass
deriving DecidableEq

/-- Candidate source classification (`"incoming"` / `"fresh"` in the source). -/
inductive Source where
  | incoming
  | fresh
deriving DecidableEq

/-- The caller-supplied compatibility model: the two group id lists
(`all_women_ids`, `all_men_ids`) and the two probability tables
(`prob_women_likes_men`, row = woman / column = man, and
`prob_men_likes_women`, row = man / column = woman). -/
structure ModelData where
  all_women_ids : List String
  all_men_ids : List String
  prob_women_likes_men : String → String → ℚ
  prob_men_likes_women : String → String → ℚ

/-- `all_user_ids = all_women_ids + all_men_ids` (backend.py line 35). -/
def all_user_ids (data : ModelData) : List String :=
  data.all_women_ids ++ data.all_men_ids

/-- Engine configuration (`num_days`, `daily_queue_size`, `weight_queue_penalty`,
`weight_reciprocal`).  `num_days = 0` models every Python value `< 1` (the loop
`range(1, num_days+1)` is empty for all of them). -/
structure Config where
  num_days : Nat
  daily_queue_size : Nat
  weight_queue_penalty : ℚ
  weight_reciprocal : Nat

/-- Mutable simulation state: `incoming_likes` (pending-like queues, lists of
(sender, day-sent)), `match_sets`, `likes_sent`, plus the index into the roll
stream (how many `np.random.rand()` calls have happened). -/
structure SimState where
  incoming_likes : String → List (String × Nat)
  match_sets : String → Finset String
  likes_sent : String → Finset String
  rollIdx : Nat

/-- Initial state: all queues and sets empty (backend.py lines 91-93). -/
def init_state : SimState where
  incoming_likes := fun _ => []
  match_sets := fun _ => ∅
  likes_sent := fun _ => ∅
  rollIdx := 0

/-- One entry of the combined candidate list built for a user-turn
(backend.py lines 120-140). -/
structure CandidateInfo where
  CandidateID : String
  Score : ℚ
  Source : Source
  SentDay : Nat
deriving DecidableEq

/-- One event-log record (backend.py lines 175-186). -/
structure EventRecord where
  Day : Nat
  UserID : String
  CandidateID : String
  Score : ℚ
  Source : Source
  LikeProbability : ℚ
  RandomRoll : ℚ
  Decision : Decision
  MatchFormed : Bool
  Delay : Int
deriving DecidableEq

/-- `s.startswith(c)` for a one-character pattern `c`: the first character of
`s` is `c`.  (Stated on the character list so that it evaluates inside the
kernel; `String.startsWith` itself is defined by well-founded recursion.) -/
def starts_with_char (s : String) (c : Char) : Bool := decide (s.data.take 1 = [c])

/-- Group test used by the source: `user.startswith("W")`. -/
def isWoman (u : String) : Bool := starts_with_char u 'W'

/-- Candidate pool: opposite group, not already matched (backend.py lines 104-109). -/
def candidate_pool (data : ModelData) (st : SimState) (user : String) : List String :=
  if isWoman user then
    data.all_men_ids.filter (fun cid => decide (cid ∉ st.match_sets user))
  else
    data.all_women_ids.filter (fun cid => decide (cid ∉ st.match_sets user))

/-- Forward probability lookup (backend.py lines 106, 110). -/
def get_prob (data : ModelData) (user cand : String) : ℚ :=
  if isWoman user then data.prob_women_likes_men user cand
  else data.prob_men_likes_women user cand

/-- Reciprocal probability lookup (backend.py lines 107, 111). -/
def get_reciprocal (data : ModelData) (user cand : String) : ℚ :=
  if isWoman user then data.prob_men_likes_women cand user
  else data.prob_women_likes_men cand user

/-- One iteration of the `incoming_for_user` loop (backend.py lines 115-117):
record the sender's day if absent or strictly smaller than the recorded one. -/
def ifu_step (m : String → Option Nat) (e : String × Nat) : String → Option Nat :=
  match m e.1 with
  | none => Function.update m e.1 (some e.2)
  | some d => if e.2 < d then Function.update m e.1 (some e.2) else m

/-- The `incoming_for_user` dict (backend.py lines 114-117): maps each sender
appearing in the queue to its smallest sent day. -/
def incoming_for_user (entries : List (String × Nat)) : String → Option Nat :=
  entries.foldl ifu_step (fun _ => none)

/-- The combined candidate list with scores (backend.py lines 119-140). -/
def candidate_info (cfg : Config) (data : ModelData) (st : SimState) (user : String)
    (day : Nat) : List CandidateInfo :=
  (candidate_pool data st user).map (fun cand =>
    match incoming_for_user (st.incoming_likes user) cand with
    | some sd =>
        { CandidateID := cand, Score := get_prob data user cand,
          Source := Source.incoming, SentDay := sd }
    | none =>
        let q : Nat := (st.incoming_likes cand).length
        { CandidateID := cand,
          Score := get_prob data user cand * (1 / (1 + cfg.weight_queue_penalty * (q : ℚ))) *
            (get_reciprocal data user cand) ^ cfg.weight_reciprocal,
          Source := Source.fresh, SentDay := day })

/-- The sort order of `sorted(candidate_info, key=..Score, reverse=True)`:
descending by score. -/
def score_ge (a b : CandidateInfo) : Prop := b.Score ≤ a.Score

instance : DecidableRel score_ge := fun a b => inferInstanceAs (Decidable (b.Score ≤ a.Score))

instance : IsTotal CandidateInfo score_ge := ⟨fun a b => le_total b.Score a.Score⟩

instance : IsTrans CandidateInfo score_ge :=
  ⟨fun _ _ _ h h' => le_trans h' h⟩

/-- `sorted(candidate_info, key=..Score, reverse=True)` (backend.py line 143).
Python's `sorted` is a *stable* sort descending by score; a stable sort of a
list under a total preorder is unique, so any stable sort is a faithful
embedding.  We use insertion sort (structurally recursive, hence evaluable by
the kernel) and prove sortedness, permutation and stability below. -/
def rank (l : List CandidateInfo) : List CandidateInfo :=
  l.insertionSort score_ge

/-- `candidate_info_sorted[:daily_queue_size]` (backend.py line 144). -/
def selected_candidates (cfg : Config) (data : ModelData) (st : SimState) (user : String)
    (day : Nat) : List CandidateInfo :=
  (rank (candidate_info cfg data st user day)).take cfg.daily_queue_size

/-- `m[k].add(v)` on a dict of sets. -/
def map_insert (m : String → Finset String) (k v : String) : String → Finset String :=
  Function.update m k (insert v (m k))

/-- The removal loop (backend.py lines 170-173): delete the first queue entry
whose sender equals `c` (and only that one), if any. -/
def remove_first_sender : List (String × Nat) → String → List (String × Nat)
  | [], _ => []
  | e :: rest, c => if e.1 = c then rest else e :: remove_first_sender rest c

/-- Processing of one selected candidate (backend.py lines 147-186): draw a
roll, decide Like/Pass, update match_sets / sent likes / queues, append a record. -/
def process_candidate (data : ModelData) (rolls : Nat → ℚ) (day : Nat) (user : String)
    (acc : SimState × List EventRecord) (cr : CandidateInfo) : SimState × List EventRecord :=
  let st0 := acc.1
  let cand := cr.CandidateID
  let like_prob := get_prob data user cand
  let roll := rolls st0.rollIdx
  let st := { st0 with rollIdx := st0.rollIdx + 1 }
  let out :=
    if roll < like_prob then
      let mf := decide (user ∈ st.likes_sent cand)
      let st1 :=
        if user ∈ st.likes_sent cand then
          { st with match_sets := map_insert (map_insert st.match_sets user cand) cand user }
        else
          let stA := { st with likes_sent := map_insert st.likes_sent user cand }
          if cr.Source = Source.fresh then
            { stA with incoming_likes :=
                Function.update stA.incoming_likes cand (stA.incoming_likes cand ++ [(user, day)]) }
          else stA
      let st2 :=
        if cr.Source = Source.incoming then
          { st1 with incoming_likes :=
              Function.update st1.incoming_likes user (remove_first_sender (st1.incoming_likes user) cand) }
        else st1
      (Decision.like, mf, st2)
    else (Decision.pass, false, st)
  let record : EventRecord :=
    { Day := day, UserID := user, CandidateID := cand, Score := cr.Score, Source := cr.Source,
      LikeProbability := like_prob, RandomRoll := roll, Decision := out.1, MatchFormed := out.2.1,
      Delay := (day : Int) - (cr.SentDay : Int) }
  (out.2.2, acc.2 ++ [record])

/-- One user-turn (backend.py lines 102-186): build, rank and truncate the
candidate list, then process each selected candidate in ranked order.
Returns the new state and the records appended during this turn. -/
def process_turn (cfg : Config) (data : ModelData) (rolls : Nat → ℚ) (day : Nat)
    (st : SimState) (user : String) : SimState × List EventRecord :=
  (selected_candidates cfg data st user day).foldl (process_candidate data rolls day user) (st, [])

/-- One simulated day (backend.py lines 97-187): every user in the day's login
order takes a turn; the day's records are accumulated in order. -/
def process_day (cfg : Config) (data : ModelData) (rolls : Nat → ℚ)
    (login_order : List String) (day : Nat) (st : SimState) : SimState × List EventRecord :=
  login_order.foldl
    (fun acc user =>
      let r := process_turn cfg data rolls day acc.1 user
      (r.1, acc.2 ++ r.2))
    (st, [])

/-- The whole engine loop (backend.py lines 86-189): days `1 .. num_days`,
starting from the empty state; the full log is the concatenation of the daily
logs in day order. -/
def run_tinder_simulation (cfg : Config) (data : ModelData)
    (shuffle : Nat → List String) (rolls : Nat → ℚ) : SimState × List EventRecord :=
  (List.range' 1 cfg.num_days).foldl
    (fun acc day =>
      let r := process_day cfg data rolls (shuffle day) day acc.1
      (r.1, acc.2 ++ r.2))
    (init_state, [])

/-- The unseen-likes counter for senders of the men group
(backend.py lines 195-202): one increment per remaining queue entry. -/
def unseen_likes_men (data : ModelData) (st : SimState) : Nat :=
  (all_user_ids data).foldl
    (fun n uid =>
      (st.incoming_likes uid).foldl
        (fun m e => if starts_with_char e.1 'M' then m + 1 else m) n)
    0

/-- The unseen-likes counter for senders of the women group
(backend.py lines 195-202). -/
def unseen_likes_women (data : ModelData) (st : SimState) : Nat :=
  (all_user_ids data).foldl
    (fun n uid =>
      (st.incoming_likes uid).foldl
        (fun m e => if starts_with_char e.1 'W' then m + 1 else m) n)
    0

/-- `df.mean(axis=0)` for a single column: mean over the row labels. -/
def col_mean (rows : List String) (P : String → String → ℚ) (c : String) : ℚ :=
  ((rows.map (fun r => P r c)).sum) / (rows.length : ℚ)

/-- One step of the `idxmin` scan: keep the current label unless the new one
is strictly smaller. -/
def idxmin_step (g : String → ℚ) (best : Option String) (c : String) : Option String :=
  match best with
  | none => some c
  | some b => if g c < g b then some c else some b

/-- pandas `Series.idxmin`: the first label attaining the minimal value. -/
def idxmin (cols : List String) (g : String → ℚ) : Option String :=
  cols.foldl (idxmin_step g) none

/-- `man_avgs = prob_women_likes_men.mean(axis=0)` (backend.py line 42):
per-man mean of the women's probabilities of liking him. -/
def man_avg (data : ModelData) (m : String) : ℚ :=
  col_mean data.all_women_ids data.prob_women_likes_men m

/-- `overall_man_avg` (backend.py line 43). -/
def overall_man_avg (data : ModelData) : ℚ :=
  ((data.all_men_ids.map (man_avg data)).sum) / (data.all_men_ids.length : ℚ)

/-- `jack_id = (man_avgs - overall_man_avg).abs().idxmin()` (backend.py line 44). -/
def jack_id (data : ModelData) : Option String :=
  idxmin data.all_men_ids (fun m => |man_avg data m - overall_man_avg data|)

/-- `woman_avgs = prob_men_likes_women.mean(axis=0)` (backend.py line 48):
per-woman mean of the men's probabilities of liking her. -/
def woman_avg (data : ModelData) (w : String) : ℚ :=
  col_mean data.all_men_ids data.prob_men_likes_women w

/-- `overall_woman_avg` (backend.py line 49). -/
def overall_woman_avg (data : ModelData) : ℚ :=
  ((data.all_women_ids.map (woman_avg data)).sum) / (data.all_women_ids.length : ℚ)

/-- `jill_id` (backend.py line 50). -/
def jill_id (data : ModelData) : Option String :=
  idxmin data.all_women_ids (fun w => |woman_avg data w - overall_woman_avg data|)

/-- `df.mean(axis=1)` for a single row: mean over the column labels. -/
def row_mean (cols : List String) (P : String → String → ℚ) (r : String) : ℚ :=
  ((cols.map (fun c => P r c)).sum) / (cols.length : ℚ)

/-- Modelled from the spec: a man's *outgoing* average compatibility — "the
mean of their own probabilities of liking members of the other group" — i.e.
the mean of `prob_men_likes_women[m, ·]` over the women.  The source never
computes this quantity; it is defined here only to compare the spec's stated
selection rule with the source's `jack_id`. -/
def spec_man_out_avg (data : ModelData) (m : String) : ℚ :=
  row_mean data.all_women_ids data.prob_men_likes_women m

/-- Modelled from the spec: the overall men's average of outgoing compatibility. -/
def spec_overall_man_out_avg (data : ModelData) : ℚ :=
  ((data.all_men_ids.map (spec_man_out_avg data)).sum) / (data.all_men_ids.length : ℚ)

/-! ## Characterisation of `incoming_for_user` -/

/-- What `ifu_step` does to a single key: keep the smaller day. -/
def omin (a : Option Nat) (d : Nat) : Option Nat :=
  match a with
  | none => some d
  | some d0 => if d < d0 then some d else some d0

lemma ifu_step_apply (m : String → Option Nat) (e : String × Nat) (s : String) :
    ifu_step m e s = if e.1 = s then omin (m s) e.2 else m s := by
  unfold ifu_step omin
  by_cases h : e.1 = s
  · subst h
    cases hm : m e.1 with
    | none => simp [hm]
    | some d => simp only [hm]; split <;> simp [hm]
  · cases hm : m e.1 with
    | none => simp [hm, Function.update, Ne.symm h, h]
    | some d => simp only [hm]; split <;> simp [Function.update, Ne.symm h, hm, h]

lemma foldl_ifu_apply (entries : List (String × Nat)) (m : String → Option Nat) (s : String) :
    (entries.foldl ifu_step m) s =
      ((entries.filter (fun e => decide (e.1 = s))).map Prod.snd).foldl omin (m s) := by
  induction entries generalizing m with
  | nil => rfl
  | cons e rest ih =>
      rw [List.foldl_cons, ih]
      by_cases h : e.1 = s
      · simp [List.filter_cons, h, ifu_step_apply]
      · simp [List.filter_cons, h, ifu_step_apply]

lemma foldl_omin_some (days : List Nat) (x : Nat) :
    days.foldl omin (some x) = some (days.foldl min x) := by
  induction days generalizing x with
  | nil => rfl
  | cons d ds ih =>
      rw [List.foldl_cons, List.foldl_cons]
      have h1 : omin (some x) d = some (min x d) := by
        show (if d < x then some d else some x) = some (min x d)
        rw [Nat.min_def]
        by_cases hdx : d < x
        · rw [if_pos hdx, if_neg (by omega)]
        · rw [if_neg hdx, if_pos (by omega)]
      rw [h1, ih]

lemma incoming_for_user_eq_min? (entries : List (String × Nat)) (s : String) :
    incoming_for_user entries s =
      ((entries.filter (fun e => decide (e.1 = s))).map Prod.snd).min? := by
  unfold incoming_for_user
  rw [foldl_ifu_apply]
  cases h : (entries.filter (fun e => decide (e.1 = s))).map Prod.snd with
  | nil => rfl
  | cons d ds =>
      rw [List.foldl_cons, List.min?_cons']
      show List.foldl omin (some d) ds = _
      rw [foldl_omin_some]

lemma mem_snd_filter_iff (entries : List (String × Nat)) (s : String) (d : Nat) :
    d ∈ (entries.filter (fun e => decide (e.1 = s))).map Prod.snd ↔ (s, d) ∈ entries := by
  simp only [List.mem_map, List.mem_filter, decide_eq_true_eq]
  constructor
  · rintro ⟨⟨a, b⟩, ⟨hmem, h1⟩, h2⟩
    simp only at h1 h2
    subst h1; subst h2; exact hmem
  · intro h; exact ⟨(s, d), ⟨h, rfl⟩, rfl⟩

/-- The `incoming_for_user` lookup yields `some d` exactly when `(s, d)` is a
queue entry and `d` is the earliest sent day of sender `s`. -/
lemma incoming_for_user_eq_some_iff {entries : List (String × Nat)} {s : String} {d : Nat} :
    incoming_for_user entries s = some d ↔
      (s, d) ∈ entries ∧ ∀ d', (s, d') ∈ entries → d ≤ d' := by
  rw [incoming_for_user_eq_min?, List.min?_eq_some_iff']
  simp only [mem_snd_filter_iff]

/-- The `incoming_for_user` lookup yields `none` exactly when the sender has no
queue entry. -/
lemma incoming_for_user_eq_none_iff {entries : List (String × Nat)} {s : String} :
    incoming_for_user entries s = none ↔ ∀ d, (s, d) ∉ entries := by
  rw [incoming_for_user_eq_min?, List.min?_eq_none_iff]
  simp only [List.map_eq_nil_iff, List.filter_eq_nil_iff, decide_eq_true_eq]
  constructor
  · intro h d hd; exact h (s, d) hd rfl
  · rintro h ⟨a, b⟩ hmem rfl; exact h b hmem

/-! ## C1: per-candidate scoring -/

/-- **C1**: for every user-turn, each candidate `cand` of the pool is scored as
follows.  If `cand` is incoming (appears as a sender in the acting user's
pending-like queue) its score is the plain forward probability `P(u,c)` with no
penalty or reciprocal factor; if `cand` is fresh its score is
`P(u,c) * 1/(1 + w_q * Q(c)) * P(c,u) ^ w_r`, where `Q(c)` is the length of
`cand`'s pending-like queue in the state from which the scores are computed. -/
theorem claim1_scoring (cfg : Config) (data : ModelData) (st : SimState) (user : String)
    (day : Nat) (cand : String) (hc : cand ∈ candidate_pool data st user) :
    ∃ cr ∈ candidate_info cfg data st user day, cr.CandidateID = cand ∧
      ((∃ d, (cand, d) ∈ st.incoming_likes user) →
        cr.Source = Source.incoming ∧ cr.Score = get_prob data user cand) ∧
      ((¬ ∃ d, (cand, d) ∈ st.incoming_likes user) →
        cr.Source = Source.fresh ∧
        cr.Score = get_prob data user cand *
          (1 / (1 + cfg.weight_queue_penalty * (((st.incoming_likes cand).length : ℚ)))) *
          (get_reciprocal data user cand) ^ cfg.weight_reciprocal) := by
  cases hifu : incoming_for_user (st.incoming_likes user) cand with
  | some sd =>
      refine ⟨{ CandidateID := cand, Score := get_prob data user cand,
                Source := Source.incoming, SentDay := sd }, ?_, rfl, ?_, ?_⟩
      · exact List.mem_map.mpr ⟨cand, hc, by simp only [hifu]⟩
      · intro _; exact ⟨rfl, rfl⟩
      · intro hn; exact absurd ⟨sd, (incoming_for_user_eq_some_iff.mp hifu).1⟩ hn
  | none =>
      refine ⟨{ CandidateID := cand,
                Score := get_prob data user cand *
                  (1 / (1 + cfg.weight_queue_penalty * (((st.incoming_likes cand).length : ℚ)))) *
                  (get_reciprocal data user cand) ^ cfg.weight_reciprocal,
                Source := Source.fresh, SentDay := day }, ?_, rfl, ?_, ?_⟩
      · exact List.mem_map.mpr ⟨cand, hc, by simp only [hifu]⟩
      · rintro ⟨d, hd⟩; exact absurd hd (incoming_for_user_eq_none_iff.mp hifu d)
      · intro _; exact ⟨rfl, rfl⟩

/-- Witness for `claim1_scoring` at a concrete input. -/
theorem claim1_scoring_witness :
    ("M1" ∈ candidate_pool ⟨["W1"], ["M1"], fun _ _ => 1, fun _ _ => 1⟩ init_state "W1") ∧
      (∃ cr ∈ candidate_info ⟨3, 5, 1, 1⟩ ⟨["W1"], ["M1"], fun _ _ => 1, fun _ _ => 1⟩
          init_state "W1" 1, cr.CandidateID = "M1" ∧
        ((∃ d, ("M1", d) ∈ init_state.incoming_likes "W1") →
          cr.Source = Source.incoming ∧
          cr.Score = get_prob ⟨["W1"], ["M1"], fun _ _ => 1, fun _ _ => 1⟩ "W1" "M1") ∧
        ((¬ ∃ d, ("M1", d) ∈ init_state.incoming_likes "W1") →
          cr.Source = Source.fresh ∧
          cr.Score = get_prob ⟨["W1"], ["M1"], fun _ _ => 1, fun _ _ => 1⟩ "W1" "M1" *
            (1 / (1 + (⟨3, 5, 1, 1⟩ : Config).weight_queue_penalty *
              (((init_state.incoming_likes "M1").length : ℚ)))) *
            (get_reciprocal ⟨["W1"], ["M1"], fun _ _ => 1, fun _ _ => 1⟩ "W1" "M1") ^
              (⟨3, 5, 1, 1⟩ : Config).weight_reciprocal)) :=
  ⟨by decide, claim1_scoring ⟨3, 5, 1, 1⟩ ⟨["W1"], ["M1"], fun _ _ => 1, fun _ _ => 1⟩
    init_state "W1" 1 "M1" (by decide)⟩

/-! ## C2: ranking, top-K selection and processing order -/

lemma rank_perm (l : List CandidateInfo) : List.Perm (rank l) l :=
  List.perm_insertionSort score_ge l

/-- The single record appended by `process_candidate`, with its key fields. -/
lemma process_candidate_log (data : ModelData) (rolls : Nat → ℚ) (day : Nat) (user : String)
    (acc : SimState × List EventRecord) (cr : CandidateInfo) :
    ∃ r : EventRecord, (process_candidate data rolls day user acc cr).2 = acc.2 ++ [r] ∧
      r.Day = day ∧ r.UserID = user ∧ r.CandidateID = cr.CandidateID ∧ r.Source = cr.Source ∧
      r.Decision = (if rolls acc.1.rollIdx < get_prob data user cr.CandidateID then
        Decision.like else Decision.pass) := by
  by_cases h : rolls acc.1.rollIdx < get_prob data user cr.CandidateID <;>
    exact ⟨_, rfl, rfl, rfl, rfl, rfl, by simp [process_candidate, h]⟩

/-- Folding `process_candidate` over a list of candidate records appends one
log record per candidate, in order, with matching candidate ids. -/
lemma foldl_pc_log_map (data : ModelData) (rolls : Nat → ℚ) (day : Nat) (user : String)
    (crs : List CandidateInfo) (acc : SimState × List EventRecord) :
    ((crs.foldl (process_candidate data rolls day user) acc).2).map (fun r => r.CandidateID) =
      acc.2.map (fun r => r.CandidateID) ++ crs.map (fun cr => cr.CandidateID) := by
  induction crs generalizing acc with
  | nil => simp
  | cons cr rest ih =>
      rw [List.foldl_cons, ih]
      obtain ⟨r, hr, _, _, hcid, _, _⟩ := process_candidate_log data rolls day user acc cr
      rw [hr]
      simp [hcid]

/-- `remove_first_sender` removes exactly one entry of the given sender when
one is present. -/
lemma remove_first_sender_countP (l : List (String × Nat)) (c : String)
    (h : ∃ d, (c, d) ∈ l) :
    (remove_first_sender l c).countP (fun e => decide (e.1 = c)) + 1 =
      l.countP (fun e => decide (e.1 = c)) := by
  induction l with
  | nil => simp at h
  | cons e rest ih =>
      unfold remove_first_sender
      by_cases he : e.1 = c
      · rw [if_pos he, List.countP_cons, if_pos (by simp [he])]
      · rw [if_neg he]
        obtain ⟨d, hd⟩ := h
        rcases List.mem_cons.mp hd with hd' | hd'
        · exact absurd (congrArg Prod.fst hd'.symm) he
        · simpa [List.countP_cons, he] using ih ⟨d, hd'⟩

/-- `remove_first_sender` removes exactly one element when the sender is present. -/
lemma remove_first_sender_length (l : List (String × Nat)) (c : String)
    (h : ∃ d, (c, d) ∈ l) :
    (remove_first_sender l c).length + 1 = l.length := by
  induction l with
  | nil => simp at h
  | cons e rest ih =>
      unfold remove_first_sender
      by_cases he : e.1 = c
      · rw [if_pos he]; rfl
      · rw [if_neg he]
        obtain ⟨d, hd⟩ := h
        rcases List.mem_cons.mp hd with hd' | hd'
        · exact absurd (congrArg Prod.fst hd'.symm) he
        · simpa using congrArg Nat.succ (ih ⟨d, hd'⟩)

/-- A pool candidate with a pending entry is always classified `incoming`. -/
lemma incoming_classified (cfg : Config) (data : ModelData) (st : SimState) (u : String)
    (day : Nat) (c : String) (hpool : c ∈ candidate_pool data st u)
    (hq : ∃ d, (c, d) ∈ st.incoming_likes u) :
    ∃ cr ∈ candidate_info cfg data st u day,
      cr.CandidateID = c ∧ cr.Source = Source.incoming := by
  cases hifu : incoming_for_user (st.incoming_likes u) c with
  | some sd =>
      exact ⟨{ CandidateID := c, Score := get_prob data u c,
               Source := Source.incoming, SentDay := sd },
        List.mem_map.mpr ⟨c, hpool, by simp only [hifu]⟩, rfl, rfl⟩
  | none =>
      obtain ⟨d, hd⟩ := hq
      exact absurd hd (incoming_for_user_eq_none_iff.mp hifu d)

/-- **C3**: when the acting user processes an incoming candidate `c`, a Like
decision removes exactly one pending entry with sender `c` from the user's
pending-like queue (the first one); a Pass leaves all pending-like queues
unchanged; and any still-pending sender who is in the candidate pool of a later
turn is again classified as incoming there. -/
theorem claim3_incoming_resolution (data : ModelData) (rolls : Nat → ℚ) (day : Nat)
    (user : String) (acc : SimState × List EventRecord) (cr : CandidateInfo)
    (hsrc : cr.Source = Source.incoming) :
    ((rolls acc.1.rollIdx < get_prob data user cr.CandidateID →
      (process_candidate data rolls day user acc cr).1.incoming_likes user =
        remove_first_sender (acc.1.incoming_likes user) cr.CandidateID ∧
      (∀ d, (cr.CandidateID, d) ∈ acc.1.incoming_likes user →
        ((process_candidate data rolls day user acc cr).1.incoming_likes user).countP
            (fun e => decide (e.1 = cr.CandidateID)) + 1 =
          (acc.1.incoming_likes user).countP (fun e => decide (e.1 = cr.CandidateID)))) ∧
    (¬ rolls acc.1.rollIdx < get_prob data user cr.CandidateID →
      (process_candidate data rolls day user acc cr).1.incoming_likes =
        acc.1.incoming_likes)) ∧
    (∀ (st2 : SimState) (u c : String) (d : Nat) (cfg : Config) (day2 : Nat),
      (c, d) ∈ st2.incoming_likes u → c ∈ candidate_pool data st2 u →
      ∃ cr2 ∈ candidate_info cfg data st2 u day2,
        cr2.CandidateID = c ∧ cr2.Source = Source.incoming) := by
  refine ⟨⟨?_, ?_⟩, ?_⟩
  · intro h
    have hq : (process_candidate data rolls day user acc cr).1.incoming_likes user =
        remove_first_sender (acc.1.incoming_likes user) cr.CandidateID := by
      by_cases hls : user ∈ acc.1.likes_sent cr.CandidateID <;>
        simp [process_candidate, h, hsrc, hls]
    refine ⟨hq, fun d hd => ?_⟩
    rw [hq]
    exact remove_first_sender_countP _ _ ⟨d, hd⟩
  · intro h
    simp [process_candidate, h]
  · intro st2 u c d cfg day2 hd hpool
    exact incoming_classified cfg data st2 u day2 c hpool ⟨d, hd⟩

/-- Witness for `claim3_incoming_resolution` at a concrete input. -/
theorem claim3_incoming_resolution_witness :
    ((⟨"M1", 1, Source.incoming, 1⟩ : CandidateInfo).Source = Source.incoming) ∧
    (((fun _ => (0 : ℚ)) (⟨fun u => if u = "W1" then [("M1", 1)] else [],
        fun _ => ∅, fun _ => ∅, 0⟩ : SimState).rollIdx <
        get_prob ⟨["W1"], ["M1"], fun _ _ => 1, fun _ _ => 1⟩ "W1"
          (⟨"M1", 1, Source.incoming, 1⟩ : CandidateInfo).CandidateID →
      (process_candidate ⟨["W1"], ["M1"], fun _ _ => 1, fun _ _ => 1⟩ (fun _ => (0 : ℚ)) 2 "W1"
          (⟨fun u => if u = "W1" then [("M1", 1)] else [], fun _ => ∅, fun _ => ∅, 0⟩, [])
          ⟨"M1", 1, Source.incoming, 1⟩).1.incoming_likes "W1" =
        remove_first_sender
          ((⟨fun u => if u = "W1" then [("M1", 1)] else [],
            fun _ => ∅, fun _ => ∅, 0⟩ : SimState).incoming_likes "W1") "M1" ∧
      (∀ d, (("M1", d) ∈ (⟨fun u => if u = "W1" then [("M1", 1)] else [],
          fun _ => ∅, fun _ => ∅, 0⟩ : SimState).incoming_likes "W1") →
        ((process_candidate ⟨["W1"], ["M1"], fun _ _ => 1, fun _ _ => 1⟩ (fun _ => (0 : ℚ)) 2 "W1"
            (⟨fun u => if u = "W1" then [("M1", 1)] else [], fun _ => ∅, fun _ => ∅, 0⟩, [])
            ⟨"M1", 1, Source.incoming, 1⟩).1.incoming_likes "W1").countP
            (fun e => decide (e.1 = "M1")) + 1 =
          (((⟨fun u => if u = "W1" then [("M1", 1)] else [],
            fun _ => ∅, fun _ => ∅, 0⟩ : SimState).incoming_likes "W1").countP
            (fun e => decide (e.1 = "M1"))))) ∧
    (¬ ((fun _ => (0 : ℚ)) (⟨fun u => if u = "W1" then [("M1", 1)] else [],
        fun _ => ∅, fun _ => ∅, 0⟩ : SimState).rollIdx <
        get_prob ⟨["W1"], ["M1"], fun _ _ => 1, fun _ _ => 1⟩ "W1"
          (⟨"M1", 1, Source.incoming, 1⟩ : CandidateInfo).CandidateID) →
      (process_candidate ⟨["W1"], ["M1"], fun _ _ => 1, fun _ _ => 1⟩ (fun _ => (0 : ℚ)) 2 "W1"
          (⟨fun u => if u = "W1" then [("M1", 1)] else [], fun _ => ∅, fun _ => ∅, 0⟩, [])
          ⟨"M1", 1, Source.incoming, 1⟩).1.incoming_likes =
        (⟨fun u => if u = "W1" then [("M1", 1)] else [],
          fun _ => ∅, fun _ => ∅, 0⟩ : SimState).incoming_likes)) ∧
    (∀ (st2 : SimState) (u c : String) (d : Nat) (cfg : Config) (day2 : Nat),
      (c, d) ∈ st2.incoming_likes u →
      c ∈ candidate_pool ⟨["W1"], ["M1"], fun _ _ => 1, fun _ _ => 1⟩ st2 u →
      ∃ cr2 ∈ candidate_info cfg ⟨["W1"], ["M1"], fun _ _ => 1, fun _ _ => 1⟩ st2 u day2,
        cr2.CandidateID = c ∧ cr2.Source = Source.incoming) :=
  ⟨rfl, claim3_incoming_resolution ⟨["W1"], ["M1"], fun _ _ => 1, fun _ _ => 1⟩
    (fun _ => (0 : ℚ)) 2 "W1"
    (⟨fun u => if u = "W1" then [("M1", 1)] else [], fun _ => ∅, fun _ => ∅, 0⟩, [])
    ⟨"M1", 1, Source.incoming, 1⟩ rfl⟩

/-! ## State-component characterisations of `process_candidate` -/

lemma pc_rollIdx (data : ModelData) (rolls : Nat → ℚ) (day : Nat) (user : String)
    (acc : SimState × List EventRecord) (cr : CandidateInfo) :
    (process_candidate data rolls day user acc cr).1.rollIdx = acc.1.rollIdx + 1 := by
  by_cases h : rolls acc.1.rollIdx < get_prob data user cr.CandidateID <;>
    by_cases hls : user ∈ acc.1.likes_sent cr.CandidateID <;>
    cases hsrc : cr.Source <;>
    simp [process_candidate, h, hls, hsrc]

lemma pc_match_sets (data : ModelData) (rolls : Nat → ℚ) (day : Nat) (user : String)
    (acc : SimState × List EventRecord) (cr : CandidateInfo) :
    (process_candidate data rolls day user acc cr).1.match_sets =
      if rolls acc.1.rollIdx < get_prob data user cr.CandidateID ∧
          user ∈ acc.1.likes_sent cr.CandidateID then
        map_insert (map_insert acc.1.match_sets user cr.CandidateID) cr.CandidateID user
      else acc.1.match_sets := by
  by_cases h : rolls acc.1.rollIdx < get_prob data user cr.CandidateID <;>
    by_cases hls : user ∈ acc.1.likes_sent cr.CandidateID <;>
    cases hsrc : cr.Source <;>
    simp [process_candidate, h, hls, hsrc]

lemma pc_likes_sent (data : ModelData) (rolls : Nat → ℚ) (day : Nat) (user : String)
    (acc : SimState × List EventRecord) (cr : CandidateInfo) :
    (process_candidate data rolls day user acc cr).1.likes_sent =
      if rolls acc.1.rollIdx < get_prob data user cr.CandidateID ∧
          user ∉ acc.1.likes_sent cr.CandidateID then
        map_insert acc.1.likes_sent user cr.CandidateID
      else acc.1.likes_sent := by
  by_cases h : rolls acc.1.rollIdx < get_prob data user cr.CandidateID <;>
    by_cases hls : user ∈ acc.1.likes_sent cr.CandidateID <;>
    cases hsrc : cr.Source <;>
    simp [process_candidate, h, hls, hsrc]

lemma pc_incoming_likes (data : ModelData) (rolls : Nat → ℚ) (day : Nat) (user : String)
    (acc : SimState × List EventRecord) (cr : CandidateInfo) :
    (process_candidate data rolls day user acc cr).1.incoming_likes =
      if rolls acc.1.rollIdx < get_prob data user cr.CandidateID then
        (if cr.Source = Source.incoming then
          Function.update acc.1.incoming_likes user
            (remove_first_sender (acc.1.incoming_likes user) cr.CandidateID)
        else if user ∈ acc.1.likes_sent cr.CandidateID then acc.1.incoming_likes
        else Function.update acc.1.incoming_likes cr.CandidateID
          (acc.1.incoming_likes cr.CandidateID ++ [(user, day)]))
      else acc.1.incoming_likes := by
  by_cases h : rolls acc.1.rollIdx < get_prob data user cr.CandidateID <;>
    by_cases hls : user ∈ acc.1.likes_sent cr.CandidateID <;>
    cases hsrc : cr.Source <;>
    simp [process_candidate, h, hls, hsrc]

/-! ## C4: match symmetry and cross-group-only matches -/

/-- The two match-set invariants of the claim: symmetry, and no user ever
matched with a member of their own group. -/
def MatchInv (st : SimState) : Prop :=
  (∀ u v, v ∈ st.match_sets u ↔ u ∈ st.match_sets v) ∧
  (∀ u v, v ∈ st.match_sets u → isWoman u ≠ isWoman v)

lemma mem_add_match (m : String → Finset String) (a b x y : String) (hab : a ≠ b) :
    y ∈ (map_insert (map_insert m a b) b a) x ↔
      (x = a ∧ y = b) ∨ (x = b ∧ y = a) ∨ y ∈ m x := by
  unfold map_insert
  by_cases hxb : x = b
  · subst hxb
    rw [Function.update_same, Function.update_noteq (Ne.symm hab)]
    simp [Ne.symm hab, Finset.mem_insert]
  · rw [Function.update_noteq hxb]
    by_cases hxa : x = a
    · subst hxa
      rw [Function.update_same]
      simp [hxb, Finset.mem_insert]
    · rw [Function.update_noteq hxa]
      simp [hxa, hxb]

lemma MatchInv_add_match {m : String → Finset String} (a b : String)
    (hgrp : isWoman a ≠ isWoman b)
    (hsym : ∀ u v, v ∈ m u ↔ u ∈ m v)
    (hcross : ∀ u v, v ∈ m u → isWoman u ≠ isWoman v) :
    (∀ u v, v ∈ (map_insert (map_insert m a b) b a) u ↔
      u ∈ (map_insert (map_insert m a b) b a) v) ∧
    (∀ u v, v ∈ (map_insert (map_insert m a b) b a) u → isWoman u ≠ isWoman v) := by
  have hab : a ≠ b := fun h => hgrp (by rw [h])
  constructor
  · intro u v
    rw [mem_add_match _ _ _ _ _ hab, mem_add_match _ _ _ _ _ hab, hsym u v]
    tauto
  · intro u v hv
    rcases (mem_add_match _ _ _ _ _ hab).mp hv with ⟨hu, hv'⟩ | ⟨hu, hv'⟩ | h
    · subst hu; subst hv'; exact hgrp
    · subst hu; subst hv'; exact fun hh => hgrp hh.symm
    · exact hcross u v h

/-- Processing one candidate preserves `MatchInv`, provided the candidate is in
the opposite group of the acting user. -/
lemma pc_MatchInv (data : ModelData) (rolls : Nat → ℚ) (day : Nat) (user : String)
    (acc : SimState × List EventRecord) (cr : CandidateInfo)
    (hgrp : isWoman user ≠ isWoman cr.CandidateID)
    (hinv : MatchInv acc.1) : MatchInv (process_candidate data rolls day user acc cr).1 := by
  unfold MatchInv
  rw [pc_match_sets]
  split
  · exact MatchInv_add_match user cr.CandidateID hgrp hinv.1 hinv.2
  · exact hinv

lemma candidate_info_id_mem_pool {cfg : Config} {data : ModelData} {st : SimState}
    {user : String} {day : Nat} {cr : CandidateInfo}
    (h : cr ∈ candidate_info cfg data st user day) :
    cr.CandidateID ∈ candidate_pool data st user := by
  obtain ⟨c, hc, hfc⟩ := List.mem_map.mp h
  have hid : cr.CandidateID = c := by
    rw [← hfc]
    cases hifu : incoming_for_user (st.incoming_likes user) c <;> simp only [hifu]
  rw [hid]; exact hc

lemma selected_id_mem_pool {cfg : Config} {data : ModelData} {st : SimState}
    {user : String} {day : Nat} {cr : CandidateInfo}
    (h : cr ∈ selected_candidates cfg data st user day) :
    cr.CandidateID ∈ candidate_pool data st user := by
  have h1 : cr ∈ rank (candidate_info cfg data st user day) := List.mem_of_mem_take h
  exact candidate_info_id_mem_pool ((rank_perm _).mem_iff.mp h1)

/-- Candidate pools only contain users of the opposite group, given that the
women's ids all start with `W` and the men's ids do not. -/
lemma pool_opposite_group {data : ModelData} {st : SimState} {user c : String}
    (hw : ∀ w ∈ data.all_women_ids, isWoman w = true)
    (hm : ∀ m ∈ data.all_men_ids, isWoman m = false)
    (hc : c ∈ candidate_pool data st user) : isWoman user ≠ isWoman c := by
  cases hiw : isWoman user <;> simp only [candidate_pool, hiw] at hc
  · simp only [if_false, Bool.false_eq_true] at hc
    rw [hw c (List.mem_of_mem_filter hc)]
    simp
  · simp only [if_true] at hc
    rw [hm c (List.mem_of_mem_filter hc)]
    simp

lemma foldl_preserve {α β : Type} {P : α → Prop} {f : α → β → α}
    {l : List β} {a : α} (hf : ∀ x b, b ∈ l → P x → P (f x b)) (ha : P a) :
    P (l.foldl f a) := by
  induction l generalizing a with
  | nil => exact ha
  | cons b rest ih =>
      exact ih (fun x b' hb' => hf x b' (List.mem_cons_of_mem _ hb'))
        (hf a b (List.mem_cons_self _ _) ha)

lemma process_turn_MatchInv (cfg : Config) (data : ModelData) (rolls : Nat → ℚ) (day : Nat)
    (st : SimState) (user : String)
    (hw : ∀ w ∈ data.all_women_ids, isWoman w = true)
    (hm : ∀ m ∈ data.all_men_ids, isWoman m = false)
    (hinv : MatchInv st) : MatchInv (process_turn cfg data rolls day st user).1 := by
  unfold process_turn
  exact foldl_preserve (P := fun acc : SimState × List EventRecord => MatchInv acc.1)
    (fun x cr hcr hx => pc_MatchInv data rolls day user x cr
      (pool_opposite_group hw hm (selected_id_mem_pool hcr)) hx) hinv

lemma process_day_MatchInv (cfg : Config) (data : ModelData) (rolls : Nat → ℚ)
    (order : List String) (day : Nat) (st : SimState)
    (hw : ∀ w ∈ data.all_women_ids, isWoman w = true)
    (hm : ∀ m ∈ data.all_men_ids, isWoman m = false)
    (hinv : MatchInv st) : MatchInv (process_day cfg data rolls order day st).1 := by
  unfold process_day
  exact foldl_preserve (P := fun acc : SimState × List EventRecord => MatchInv acc.1)
    (fun x u _ hx => process_turn_MatchInv cfg data rolls day x.1 u hw hm hx) hinv

lemma init_MatchInv : MatchInv init_state := by
  constructor <;> intro u v <;> simp [init_state]

lemma run_MatchInv (cfg : Config) (data : ModelData) (shuffle : Nat → List String)
    (rolls : Nat → ℚ)
    (hw : ∀ w ∈ data.all_women_ids, isWoman w = true)
    (hm : ∀ m ∈ data.all_men_ids, isWoman m = false) :
    MatchInv (run_tinder_simulation cfg data shuffle rolls).1 := by
  unfold run_tinder_simulation
  exact foldl_preserve (P := fun acc : SimState × List EventRecord => MatchInv acc.1)
    (fun x day _ hx => process_day_MatchInv cfg data rolls (shuffle day) day x.1 hw hm hx)
    init_MatchInv

/-- **C4**: provided the women's ids all start with `W` and the men's do not
(as in the source data), the match sets are symmetric and cross-group-only at
every point during and after the run: initially, after every single candidate
processed against an opposite-group candidate, after every user-turn, and at
the end of the full run. -/
theorem claim4_match_invariants (data : ModelData)
    (hw : ∀ w ∈ data.all_women_ids, isWoman w = true)
    (hm : ∀ m ∈ data.all_men_ids, isWoman m = false) :
    MatchInv init_state ∧
    (∀ (rolls : Nat → ℚ) (day : Nat) (user : String) (acc : SimState × List EventRecord)
      (cr : CandidateInfo), isWoman user ≠ isWoman cr.CandidateID → MatchInv acc.1 →
      MatchInv (process_candidate data rolls day user acc cr).1) ∧
    (∀ (cfg : Config) (rolls : Nat → ℚ) (day : Nat) (st : SimState) (user : String),
      MatchInv st → MatchInv (process_turn cfg data rolls day st user).1) ∧
    (∀ (cfg : Config) (shuffle : Nat → List String) (rolls : Nat → ℚ),
      MatchInv (run_tinder_simulation cfg data shuffle rolls).1) :=
  ⟨init_MatchInv,
   fun rolls day user acc cr hgrp hx => pc_MatchInv data rolls day user acc cr hgrp hx,
   fun cfg rolls day st user hx => process_turn_MatchInv cfg data rolls day st user hw hm hx,
   fun cfg shuffle rolls => run_MatchInv cfg data shuffle rolls hw hm⟩

/-- Witness for `claim4_match_invariants` at a concrete input. -/
theorem claim4_match_invariants_witness :
    (∀ w ∈ (⟨["W1"], ["M1"], fun _ _ => 1, fun _ _ => 1⟩ : ModelData).all_women_ids,
      isWoman w = true) ∧
    (∀ m ∈ (⟨["W1"], ["M1"], fun _ _ => 1, fun _ _ => 1⟩ : ModelData).all_men_ids,
      isWoman m = false) ∧
    (MatchInv init_state ∧
    (∀ (rolls : Nat → ℚ) (day : Nat) (user : String) (acc : SimState × List EventRecord)
      (cr : CandidateInfo), isWoman user ≠ isWoman cr.CandidateID → MatchInv acc.1 →
      MatchInv (process_candidate ⟨["W1"], ["M1"], fun _ _ => 1, fun _ _ => 1⟩
        rolls day user acc cr).1) ∧
    (∀ (cfg : Config) (rolls : Nat → ℚ) (day : Nat) (st : SimState) (user : String),
      MatchInv st → MatchInv (process_turn cfg ⟨["W1"], ["M1"], fun _ _ => 1, fun _ _ => 1⟩
        rolls day st user).1) ∧
    (∀ (cfg : Config) (shuffle : Nat → List String) (rolls : Nat → ℚ),
      MatchInv (run_tinder_simulation cfg ⟨["W1"], ["M1"], fun _ _ => 1, fun _ _ => 1⟩
        shuffle rolls).1)) :=
  ⟨by decide, by decide,
   claim4_match_invariants ⟨["W1"], ["M1"], fun _ _ => 1, fun _ _ => 1⟩ (by decide) (by decide)⟩

/-! ## C5: determinism -/

/-- **C5**: the engine is a pure function of the compatibility data, the
configuration and the two seed-determined random streams (the per-day login
shuffles and the decision rolls).  Two invocations with the same seed — hence
identical streams — produce identical event logs (same records in the same
order) and identical final match sets. -/
theorem claim5_determinism (cfg cfg' : Config) (data data' : ModelData)
    (shuffle shuffle' : Nat → List String) (rolls rolls' : Nat → ℚ)
    (hcfg : cfg = cfg') (hdata : data = data') (hsh : shuffle = shuffle')
    (hr : rolls = rolls') :
    (run_tinder_simulation cfg data shuffle rolls).2 =
      (run_tinder_simulation cfg' data' shuffle' rolls').2 ∧
    (∀ u, (run_tinder_simulation cfg data shuffle rolls).1.match_sets u =
      (run_tinder_simulation cfg' data' shuffle' rolls').1.match_sets u) := by
  subst hcfg; subst hdata; subst hsh; subst hr
  exact ⟨rfl, fun _ => rfl⟩

/-- Witness for `claim5_determinism` at a concrete input. -/
theorem claim5_determinism_witness :
    ((⟨2, 1, 1, 1⟩ : Config) = ⟨2, 1, 1, 1⟩) ∧
    ((⟨["W1"], ["M1"], fun _ _ => 1, fun _ _ => 1⟩ : ModelData) =
      ⟨["W1"], ["M1"], fun _ _ => 1, fun _ _ => 1⟩) ∧
    ((run_tinder_simulation ⟨2, 1, 1, 1⟩ ⟨["W1"], ["M1"], fun _ _ => 1, fun _ _ => 1⟩
        (fun _ => ["M1", "W1"]) (fun _ => 0)).2 =
      (run_tinder_simulation ⟨2, 1, 1, 1⟩ ⟨["W1"], ["M1"], fun _ _ => 1, fun _ _ => 1⟩
        (fun _ => ["M1", "W1"]) (fun _ => 0)).2 ∧
    (∀ u, (run_tinder_simulation ⟨2, 1, 1, 1⟩ ⟨["W1"], ["M1"], fun _ _ => 1, fun _ _ => 1⟩
        (fun _ => ["M1", "W1"]) (fun _ => 0)).1.match_sets u =
      (run_tinder_simulation ⟨2, 1, 1, 1⟩ ⟨["W1"], ["M1"], fun _ _ => 1, fun _ _ => 1⟩
        (fun _ => ["M1", "W1"]) (fun _ => 0)).1.match_sets u)) :=
  ⟨rfl, rfl, claim5_determinism _ _ _ _ _ _ _ _ rfl rfl rfl rfl⟩

/-! ## C9: pending entries always have a recorded sent like -/

/-- The invariant: every pending-like entry `(s, d)` held by `x` implies `x`
is in `s`'s sent-likes set. -/
def SentInv (st : SimState) : Prop :=
  ∀ x s d, (s, d) ∈ st.incoming_likes x → x ∈ st.likes_sent s

lemma remove_first_sender_sublist (l : List (String × Nat)) (c : String) :
    List.Sublist (remove_first_sender l c) l := by
  induction l with
  | nil => exact List.Sublist.refl _
  | cons e rest ih =>
      unfold remove_first_sender
      by_cases he : e.1 = c
      · rw [if_pos he]; exact List.sublist_cons_self e rest
      · rw [if_neg he]; exact List.Sublist.cons₂ e ih

lemma likes_sent_mono (data : ModelData) (rolls : Nat → ℚ) (day : Nat) (user : String)
    (acc : SimState × List EventRecord) (cr : CandidateInfo) (s : String) :
    acc.1.likes_sent s ⊆ (process_candidate data rolls day user acc cr).1.likes_sent s := by
  rw [pc_likes_sent]
  split
  · unfold map_insert
    by_cases hs : s = user
    · subst hs; rw [Function.update_same]; exact Finset.subset_insert _ _
    · rw [Function.update_noteq hs]
  · exact Finset.Subset.refl _

lemma pc_SentInv (data : ModelData) (rolls : Nat → ℚ) (day : Nat) (user : String)
    (acc : SimState × List EventRecord) (cr : CandidateInfo)
    (hinv : SentInv acc.1) : SentInv (process_candidate data rolls day user acc cr).1 := by
  intro x s d hmem
  have hmono := likes_sent_mono data rolls day user acc cr s
  rw [pc_incoming_likes] at hmem
  by_cases h : rolls acc.1.rollIdx < get_prob data user cr.CandidateID
  · rw [if_pos h] at hmem
    by_cases hsrc : cr.Source = Source.incoming
    · rw [if_pos hsrc] at hmem
      by_cases hx : x = user
      · subst hx
        rw [Function.update_same] at hmem
        exact hmono (hinv _ _ _ ((remove_first_sender_sublist _ _).subset hmem))
      · rw [Function.update_noteq hx] at hmem
        exact hmono (hinv _ _ _ hmem)
    · rw [if_neg hsrc] at hmem
      by_cases hls : user ∈ acc.1.likes_sent cr.CandidateID
      · rw [if_pos hls] at hmem
        exact hmono (hinv _ _ _ hmem)
      · rw [if_neg hls] at hmem
        by_cases hx : x = cr.CandidateID
        · subst hx
          rw [Function.update_same, List.mem_append] at hmem
          rcases hmem with hmem | hmem
          · exact hmono (hinv _ _ _ hmem)
          · simp only [List.mem_singleton, Prod.mk.injEq] at hmem
            obtain ⟨hs, _⟩ := hmem
            subst hs
            rw [pc_likes_sent, if_pos ⟨h, hls⟩]
            unfold map_insert
            rw [Function.update_same]
            exact Finset.mem_insert_self _ _
        · rw [Function.update_noteq hx] at hmem
          exact hmono (hinv _ _ _ hmem)
  · rw [if_neg h] at hmem
    exact hmono (hinv _ _ _ hmem)

lemma process_turn_SentInv (cfg : Config) (data : ModelData) (rolls : Nat → ℚ) (day : Nat)
    (st : SimState) (user : String) (hinv : SentInv st) :
    SentInv (process_turn cfg data rolls day st user).1 := by
  unfold process_turn
  exact foldl_preserve (P := fun acc : SimState × List EventRecord => SentInv acc.1)
    (fun x cr _ hx => pc_SentInv data rolls day user x cr hx) hinv

lemma run_SentInv (cfg : Config) (data : ModelData) (shuffle : Nat → List String)
    (rolls : Nat → ℚ) : SentInv (run_tinder_simulation cfg data shuffle rolls).1 := by
  unfold run_tinder_simulation
  apply foldl_preserve (P := fun acc : SimState × List EventRecord => SentInv acc.1)
  · intro x day _ hx
    unfold process_day
    exact foldl_preserve (P := fun acc : SimState × List EventRecord => SentInv acc.1)
      (fun y u _ hy => process_turn_SentInv cfg data rolls day y.1 u hy) hx
  · intro x s d hmem
    simp [init_state] at hmem

/-- Forming a match puts the acting user and the candidate into each other's
match sets. -/
lemma mem_add_match_self (m : String → Finset String) (a b : String) :
    b ∈ (map_insert (map_insert m a b) b a) a ∧
      a ∈ (map_insert (map_insert m a b) b a) b := by
  unfold map_insert
  by_cases hab : a = b
  · subst hab
    rw [Function.update_same]
    exact ⟨Finset.mem_insert_self _ _, Finset.mem_insert_self _ _⟩
  · constructor
    · rw [Function.update_noteq hab, Function.update_same]
      exact Finset.mem_insert_self _ _
    · rw [Function.update_same]
      exact Finset.mem_insert_self _ _

/-- The record emitted by `process_candidate`, with its `MatchFormed` field. -/
lemma pc_log_matchformed (data : ModelData) (rolls : Nat → ℚ) (day : Nat) (user : String)
    (acc : SimState × List EventRecord) (cr : CandidateInfo) :
    ∃ r : EventRecord, (process_candidate data rolls day user acc cr).2 = acc.2 ++ [r] ∧
      r.MatchFormed = (decide (rolls acc.1.rollIdx < get_prob data user cr.CandidateID) &&
        decide (user ∈ acc.1.likes_sent cr.CandidateID)) := by
  by_cases h : rolls acc.1.rollIdx < get_prob data user cr.CandidateID <;>
    exact ⟨_, rfl, by simp [process_candidate, h]⟩

/-- **C9**: in every reachable state, a pending entry `(s, d)` held by `x`
implies `x ∈ likes_sent s` (the invariant holds initially, is preserved by
every candidate-processing step, and holds after any full run); consequently,
a Like decision on an incoming candidate always finds the mutual like and
forms the match: both users are added to each other's match sets and the
emitted record has `MatchFormed = true`. -/
theorem claim9_incoming_like_always_matches :
    SentInv init_state ∧
    (∀ (data : ModelData) (rolls : Nat → ℚ) (day : Nat) (user : String)
      (acc : SimState × List EventRecord) (cr : CandidateInfo),
      SentInv acc.1 → SentInv (process_candidate data rolls day user acc cr).1) ∧
    (∀ (cfg : Config) (data : ModelData) (shuffle : Nat → List String) (rolls : Nat → ℚ),
      SentInv (run_tinder_simulation cfg data shuffle rolls).1) ∧
    (∀ (data : ModelData) (rolls : Nat → ℚ) (day : Nat) (user : String)
      (acc : SimState × List EventRecord) (cr : CandidateInfo),
      SentInv acc.1 →
      (∃ d, (cr.CandidateID, d) ∈ acc.1.incoming_likes user) →
      rolls acc.1.rollIdx < get_prob data user cr.CandidateID →
      user ∈ acc.1.likes_sent cr.CandidateID ∧
      cr.CandidateID ∈ (process_candidate data rolls day user acc cr).1.match_sets user ∧
      user ∈ (process_candidate data rolls day user acc cr).1.match_sets cr.CandidateID ∧
      ∃ r : EventRecord, (process_candidate data rolls day user acc cr).2 = acc.2 ++ [r] ∧
        r.MatchFormed = true) := by
  refine ⟨fun x s d hmem => by simp [init_state] at hmem,
    fun data rolls day user acc cr h => pc_SentInv data rolls day user acc cr h,
    fun cfg data shuffle rolls => run_SentInv cfg data shuffle rolls,
    fun data rolls day user acc cr hinv hq h => ?_⟩
  obtain ⟨d, hd⟩ := hq
  have hls : user ∈ acc.1.likes_sent cr.CandidateID := hinv _ _ _ hd
  have hmm := mem_add_match_self acc.1.match_sets user cr.CandidateID
  refine ⟨hls, ?_, ?_, ?_⟩
  · rw [pc_match_sets, if_pos ⟨h, hls⟩]
    exact hmm.1
  · rw [pc_match_sets, if_pos ⟨h, hls⟩]
    exact hmm.2
  · obtain ⟨r, hr, hmf⟩ := pc_log_matchformed data rolls day user acc cr
    exact ⟨r, hr, by rw [hmf]; simp [h, hls]⟩

/-- Witness for `claim9_incoming_like_always_matches` at a concrete input. -/
theorem claim9_incoming_like_always_matches_witness :
    "W1" ∈ (⟨fun u => if u = "W1" then [("M1", 1)] else [], fun _ => ∅,
        fun s => if s = "M1" then {"W1"} else ∅, 0⟩ : SimState).likes_sent "M1" ∧
      "M1" ∈ (process_candidate ⟨["W1"], ["M1"], fun _ _ => 1, fun _ _ => 1⟩ (fun _ => 0) 2 "W1"
        (⟨fun u => if u = "W1" then [("M1", 1)] else [], fun _ => ∅,
          fun s => if s = "M1" then {"W1"} else ∅, 0⟩, [])
        ⟨"M1", 1, Source.incoming, 1⟩).1.match_sets "W1" ∧
      "W1" ∈ (process_candidate ⟨["W1"], ["M1"], fun _ _ => 1, fun _ _ => 1⟩ (fun _ => 0) 2 "W1"
        (⟨fun u => if u = "W1" then [("M1", 1)] else [], fun _ => ∅,
          fun s => if s = "M1" then {"W1"} else ∅, 0⟩, [])
        ⟨"M1", 1, Source.incoming, 1⟩).1.match_sets "M1" ∧
      ∃ r : EventRecord, (process_candidate ⟨["W1"], ["M1"], fun _ _ => 1, fun _ _ => 1⟩
        (fun _ => 0) 2 "W1"
        (⟨fun u => if u = "W1" then [("M1", 1)] else [], fun _ => ∅,
          fun s => if s = "M1" then {"W1"} else ∅, 0⟩, [])
        ⟨"M1", 1, Source.incoming, 1⟩).2 = ([] : List EventRecord) ++ [r] ∧
        r.MatchFormed = true :=
  claim9_incoming_like_always_matches.2.2.2 ⟨["W1"], ["M1"], fun _ _ => 1, fun _ _ => 1⟩
    (fun _ => 0) 2 "W1"
    (⟨fun u => if u = "W1" then [("M1", 1)] else [], fun _ => ∅,
      fun s => if s = "M1" then {"W1"} else ∅, 0⟩, [])
    ⟨"M1", 1, Source.incoming, 1⟩
    (by
      intro x s d hmem
      by_cases hx : x = "W1"
      · subst hx
        simp at hmem
        obtain ⟨hs, _⟩ := hmem
        subst hs
        simp
      · simp [hx] at hmem)
    ⟨1, by decide⟩ (by decide)

/-! ## C10: duplicate pending entries, unseen-likes counting, earliest-day
classification -/

lemma foldl_count (p : String × Nat → Bool) (l : List (String × Nat)) (n : Nat) :
    l.foldl (fun m e => if p e then m + 1 else m) n = n + l.countP p := by
  induction l generalizing n with
  | nil => simp
  | cons e rest ih =>
      rw [List.foldl_cons, List.countP_cons, ih]
      cases hpe : p e <;> simp [hpe] <;> omega

lemma foldl_add_sum {f : Nat → String → Nat} {g : String → Nat}
    (hf : ∀ n uid, f n uid = n + g uid) (l : List String) (n : Nat) :
    l.foldl f n = n + (l.map g).sum := by
  induction l generalizing n with
  | nil => simp
  | cons u rest ih =>
      rw [List.foldl_cons, hf, ih, List.map_cons, List.sum_cons]
      omega

/-- The unseen-likes counter for men counts every remaining queue entry whose
sender starts with `M`, each entry separately (with multiplicity). -/
lemma unseen_likes_men_eq (data : ModelData) (st : SimState) :
    unseen_likes_men data st = ((all_user_ids data).map
      (fun uid => (st.incoming_likes uid).countP (fun e => starts_with_char e.1 'M'))).sum := by
  unfold unseen_likes_men
  rw [foldl_add_sum (g := fun uid =>
    (st.incoming_likes uid).countP (fun e => starts_with_char e.1 'M'))
    (fun n uid => foldl_count _ _ n) (all_user_ids data) 0]
  omega

/-- The unseen-likes counter for women counts every remaining queue entry whose
sender starts with `W`, each entry separately (with multiplicity). -/
lemma unseen_likes_women_eq (data : ModelData) (st : SimState) :
    unseen_likes_women data st = ((all_user_ids data).map
      (fun uid => (st.incoming_likes uid).countP (fun e => starts_with_char e.1 'W'))).sum := by
  unfold unseen_likes_women
  rw [foldl_add_sum (g := fun uid =>
    (st.incoming_likes uid).countP (fun e => starts_with_char e.1 'W'))
    (fun n uid => foldl_count _ _ n) (all_user_ids data) 0]
  omega

/-- **C10**: when `user` decides Like on a fresh candidate `c` that has not
previously sent a like to `user`, the entry `(user, day)` is appended to `c`'s
pending-like queue unconditionally — even when the queue already holds an
earlier entry from `user`, which then makes the queue hold two entries of the
same sender; the unseen-likes metrics count every entry separately; and the
incoming classification maps each sender to its earliest sent day. -/
theorem claim10_duplicate_pending (data : ModelData) (rolls : Nat → ℚ) (day : Nat)
    (user : String) (acc : SimState × List EventRecord) (cr : CandidateInfo)
    (hfresh : cr.Source = Source.fresh)
    (hlike : rolls acc.1.rollIdx < get_prob data user cr.CandidateID)
    (hnot : user ∉ acc.1.likes_sent cr.CandidateID) :
    ((process_candidate data rolls day user acc cr).1.incoming_likes cr.CandidateID =
      acc.1.incoming_likes cr.CandidateID ++ [(user, day)]) ∧
    (∀ d', (user, d') ∈ acc.1.incoming_likes cr.CandidateID →
      2 ≤ ((process_candidate data rolls day user acc cr).1.incoming_likes
        cr.CandidateID).countP (fun e => decide (e.1 = user))) ∧
    (∀ (data2 : ModelData) (st : SimState),
      unseen_likes_men data2 st = ((all_user_ids data2).map
        (fun uid => (st.incoming_likes uid).countP (fun e => starts_with_char e.1 'M'))).sum ∧
      unseen_likes_women data2 st = ((all_user_ids data2).map
        (fun uid => (st.incoming_likes uid).countP (fun e => starts_with_char e.1 'W'))).sum) ∧
    (∀ (entries : List (String × Nat)) (s : String) (d : Nat),
      incoming_for_user entries s = some d ↔
        (s, d) ∈ entries ∧ ∀ d', (s, d') ∈ entries → d ≤ d') := by
  have happ : (process_candidate data rolls day user acc cr).1.incoming_likes cr.CandidateID =
      acc.1.incoming_likes cr.CandidateID ++ [(user, day)] := by
    rw [pc_incoming_likes, if_pos hlike, if_neg (by simp [hfresh]), if_neg hnot,
      Function.update_same]
  refine ⟨happ, fun d' hd' => ?_, fun data2 st => ⟨unseen_likes_men_eq data2 st,
    unseen_likes_women_eq data2 st⟩, fun entries s d => incoming_for_user_eq_some_iff⟩
  rw [happ, List.countP_append]
  have h1 : 0 < (acc.1.incoming_likes cr.CandidateID).countP (fun e => decide (e.1 = user)) :=
    List.countP_pos_iff.mpr ⟨(user, d'), hd', by simp⟩
  have h2 : ([((user : String), day)]).countP (fun e => decide (e.1 = user)) = 1 := by simp
  omega

/-- Witness for `claim10_duplicate_pending` at a concrete input. -/
theorem claim10_duplicate_pending_witness :
    ((⟨"W1", 1, Source.fresh, 2⟩ : CandidateInfo).Source = Source.fresh) ∧
    ((fun _ => (0 : ℚ)) (⟨fun u => if u = "W1" then [("M1", 1)] else [], fun _ => ∅,
        fun s => if s = "M1" then {"W1"} else ∅, 3⟩ : SimState).rollIdx <
      get_prob ⟨["W1"], ["M1"], fun _ _ => 1, fun _ _ => 1⟩ "M1"
        (⟨"W1", 1, Source.fresh, 2⟩ : CandidateInfo).CandidateID) ∧
    ("M1" ∉ (⟨fun u => if u = "W1" then [("M1", 1)] else [], fun _ => ∅,
        fun s => if s = "M1" then {"W1"} else ∅, 3⟩ : SimState).likes_sent "W1") ∧
    (((process_candidate ⟨["W1"], ["M1"], fun _ _ => 1, fun _ _ => 1⟩ (fun _ => (0 : ℚ)) 2 "M1"
        (⟨fun u => if u = "W1" then [("M1", 1)] else [], fun _ => ∅,
          fun s => if s = "M1" then {"W1"} else ∅, 3⟩, [])
        ⟨"W1", 1, Source.fresh, 2⟩).1.incoming_likes "W1" =
      (⟨fun u => if u = "W1" then [("M1", 1)] else [], fun _ => ∅,
        fun s => if s = "M1" then {"W1"} else ∅, 3⟩ : SimState).incoming_likes "W1" ++
        [("M1", 2)]) ∧
    (∀ d', ("M1", d') ∈ (⟨fun u => if u = "W1" then [("M1", 1)] else [], fun _ => ∅,
        fun s => if s = "M1" then {"W1"} else ∅, 3⟩ : SimState).incoming_likes "W1" →
      2 ≤ ((process_candidate ⟨["W1"], ["M1"], fun _ _ => 1, fun _ _ => 1⟩ (fun _ => (0 : ℚ))
        2 "M1"
        (⟨fun u => if u = "W1" then [("M1", 1)] else [], fun _ => ∅,
          fun s => if s = "M1" then {"W1"} else ∅, 3⟩, [])
        ⟨"W1", 1, Source.fresh, 2⟩).1.incoming_likes "W1").countP
          (fun e => decide (e.1 = "M1"))) ∧
    (∀ (data2 : ModelData) (st : SimState),
      unseen_likes_men data2 st = ((all_user_ids data2).map
        (fun uid => (st.incoming_likes uid).countP (fun e => starts_with_char e.1 'M'))).sum ∧
      unseen_likes_women data2 st = ((all_user_ids data2).map
        (fun uid => (st.incoming_likes uid).countP (fun e => starts_with_char e.1 'W'))).sum) ∧
    (∀ (entries : List (String × Nat)) (s : String) (d : Nat),
      incoming_for_user entries s = some d ↔
        (s, d) ∈ entries ∧ ∀ d', (s, d') ∈ entries → d ≤ d')) :=
  ⟨rfl, by decide, by decide,
    claim10_duplicate_pending ⟨["W1"], ["M1"], fun _ _ => 1, fun _ _ => 1⟩ (fun _ => (0 : ℚ))
      2 "M1"
      (⟨fun u => if u = "W1" then [("M1", 1)] else [], fun _ => ∅,
        fun s => if s = "M1" then {"W1"} else ∅, 3⟩, [])
      ⟨"W1", 1, Source.fresh, 2⟩ rfl (by decide) (by decide)⟩

/-! ## C7: configuration validation -/

lemma idxmin_go (g : String → ℚ) (cols : List String) :
    ∀ b : String, ∃ j, cols.foldl (idxmin_step g) (some b) = some j ∧
      (j = b ∨ j ∈ cols) ∧ g j ≤ g b ∧ ∀ c ∈ cols, g j ≤ g c := by
  induction cols with
  | nil =>
      intro b
      exact ⟨b, rfl, Or.inl rfl, le_refl _, fun c hc => absurd hc (List.not_mem_nil c)⟩
  | cons c rest ih =>
      intro b
      rw [List.foldl_cons]
      by_cases h : g c < g b
      · rw [show idxmin_step g (some b) c = some c by simp [idxmin_step, h]]
        obtain ⟨j, hj, hmem, hle, hall⟩ := ih c
        refine ⟨j, hj, ?_, le_of_lt (lt_of_le_of_lt hle h), ?_⟩
        · rcases hmem with rfl | hm
          · exact Or.inr (List.mem_cons_self _ _)
          · exact Or.inr (List.mem_cons_of_mem _ hm)
        · intro c' hc'
          rcases List.mem_cons.mp hc' with rfl | hm
          · exact hle
          · exact hall c' hm
      · rw [show idxmin_step g (some b) c = some b by simp [idxmin_step, h]]
        obtain ⟨j, hj, hmem, hle, hall⟩ := ih b
        refine ⟨j, hj, ?_, hle, ?_⟩
        · rcases hmem with rfl | hm
          · exact Or.inl rfl
          · exact Or.inr (List.mem_cons_of_mem _ hm)
        · intro c' hc'
          rcases List.mem_cons.mp hc' with rfl | hm
          · exact le_trans hle (le_of_not_lt h)
          · exact hall c' hm

/-- `idxmin` picks a member of the list attaining the minimal value. -/
lemma idxmin_spec (cols : List String) (g : String → ℚ) (j : String)
    (hj : idxmin cols g = some j) : j ∈ cols ∧ ∀ c ∈ cols, g j ≤ g c := by
  cases cols with
  | nil => simp [idxmin] at hj
  | cons c rest =>
      obtain ⟨j', hj', hmem, hle, hall⟩ := idxmin_go g rest c
      rw [idxmin, List.foldl_cons,
        show idxmin_step g none c = some c from rfl, hj'] at hj
      obtain rfl : j' = j := Option.some.inj hj
      constructor
      · rcases hmem with rfl | hm
        · exact List.mem_cons_self _ _
        · exact List.mem_cons_of_mem _ hm
      · intro c' hc'
        rcases List.mem_cons.mp hc' with rfl | hm
        · exact hle
        · exact hall c' hm

/-- Concrete compatibility data on which the source's selection rule
(incoming averages, backend.py lines 42-50) and the spec's stated rule
(outgoing averages) pick different representatives. -/
def c8data : ModelData where
  all_women_ids := ["Wa"]
  all_men_ids := ["M1", "M2", "M3"]
  prob_women_likes_men := fun _ m => if m = "M1" then 0 else if m = "M2" then 1 / 2 else 1
  prob_men_likes_women := fun m _ => if m = "M1" then 1 / 2 else if m = "M2" then 0 else 1

/-- **C8 (counterexample)**: on `c8data` the source selects Jack = `M2` (the
man whose *incoming* average — the women's mean probability of liking him — is
closest to the overall such average), while `M1` is the strictly unique man
whose *outgoing* average compatibility is closest to the men's overall
outgoing average.  So the claim's "average outgoing compatibility" selection
rule does not describe the code. -/
theorem claim8_counterexample :
    jack_id c8data = some "M2" ∧
    ("M2" : String) ≠ "M1" ∧
    (∀ m ∈ c8data.all_men_ids, m ≠ "M1" →
      |spec_man_out_avg c8data "M1" - spec_overall_man_out_avg c8data| <
        |spec_man_out_avg c8data m - spec_overall_man_out_avg c8data|) := by
  have h21 : ("M2" : String) ≠ "M1" := by decide
  have h31 : ("M3" : String) ≠ "M1" := by decide
  have h32 : ("M3" : String) ≠ "M2" := by decide
  refine ⟨?_, h21, ?_⟩
  · norm_num [jack_id, idxmin, idxmin_step, man_avg, col_mean, overall_man_avg, c8data,
      h21, h31, h32]
  · intro m hm hne
    have hm' : m = "M1" ∨ m = "M2" ∨ m = "M3" := by simpa [c8data] using hm
    rcases hm' with rfl | rfl | rfl
    · exact absurd rfl hne
    · norm_num [spec_man_out_avg, spec_overall_man_out_avg, row_mean, c8data, h21, h31, h32]
    · norm_num [spec_man_out_avg, spec_overall_man_out_avg, row_mean, c8data, h21, h31, h32]

/-- **C8 (amended)**: each representative is the member of their group whose
average *incoming* compatibility (the mean of the opposite group's
probabilities of liking them, a column mean of the respective probability
table) is closest to the group's overall average of that quantity (first such
member on ties). -/
theorem claim8_representatives_incoming (data : ModelData) (jackv jillv : String)
    (hj : jack_id data = some jackv) (hl : jill_id data = some jillv) :
    (jackv ∈ data.all_men_ids ∧ ∀ m ∈ data.all_men_ids,
      |man_avg data jackv - overall_man_avg data| ≤
        |man_avg data m - overall_man_avg data|) ∧
    (jillv ∈ data.all_women_ids ∧ ∀ w ∈ data.all_women_ids,
      |woman_avg data jillv - overall_woman_avg data| ≤
        |woman_avg data w - overall_woman_avg data|) :=
  ⟨idxmin_spec _ _ _ hj, idxmin_spec _ _ _ hl⟩

/-- Witness for `claim8_representatives_incoming` at a concrete input. -/
theorem claim8_representatives_incoming_witness :
    jack_id ⟨["W1", "W2"], ["M1", "M2"], fun _ _ => 0, fun _ _ => 0⟩ = some "M1" ∧
    jill_id ⟨["W1", "W2"], ["M1", "M2"], fun _ _ => 0, fun _ _ => 0⟩ = some "W1" ∧
    (("M1" ∈ (⟨["W1", "W2"], ["M1", "M2"], fun _ _ => 0, fun _ _ => 0⟩ :
        ModelData).all_men_ids ∧
      ∀ m ∈ (⟨["W1", "W2"], ["M1", "M2"], fun _ _ => 0, fun _ _ => 0⟩ :
          ModelData).all_men_ids,
        |man_avg ⟨["W1", "W2"], ["M1", "M2"], fun _ _ => 0, fun _ _ => 0⟩ "M1" -
            overall_man_avg ⟨["W1", "W2"], ["M1", "M2"], fun _ _ => 0, fun _ _ => 0⟩| ≤
          |man_avg ⟨["W1", "W2"], ["M1", "M2"], fun _ _ => 0, fun _ _ => 0⟩ m -
            overall_man_avg ⟨["W1", "W2"], ["M1", "M2"], fun _ _ => 0, fun _ _ => 0⟩|) ∧
    ("W1" ∈ (⟨["W1", "W2"], ["M1", "M2"], fun _ _ => 0, fun _ _ => 0⟩ :
        ModelData).all_women_ids ∧
      ∀ w ∈ (⟨["W1", "W2"], ["M1", "M2"], fun _ _ => 0, fun _ _ => 0⟩ :
          ModelData).all_women_ids,
        |woman_avg ⟨["W1", "W2"], ["M1", "M2"], fun _ _ => 0, fun _ _ => 0⟩ "W1" -
            overall_woman_avg ⟨["W1", "W2"], ["M1", "M2"], fun _ _ => 0, fun _ _ => 0⟩| ≤
          |woman_avg ⟨["W1", "W2"], ["M1", "M2"], fun _ _ => 0, fun _ _ => 0⟩ w -
            overall_woman_avg ⟨["W1", "W2"], ["M1", "M2"], fun _ _ => 0, fun _ _ => 0⟩|)) := by
  have hj : jack_id ⟨["W1", "W2"], ["M1", "M2"], fun _ _ => 0, fun _ _ => 0⟩ = some "M1" := by
    simp [jack_id, idxmin, idxmin_step, man_avg, col_mean, overall_man_avg]
  have hl : jill_id ⟨["W1", "W2"], ["M1", "M2"], fun _ _ => 0, fun _ _ => 0⟩ = some "W1" := by
    simp [jill_id, idxmin, idxmin_step, woman_avg, col_mean, overall_woman_avg]
  exact ⟨hj, hl, claim8_representatives_incoming _ _ _ hj hl⟩

/-! ## C6: queue conservation -/

/-- The event where the like behind queue entry `(s, d)` held by `x` was sent:
`s` decided Like on `x` as a fresh candidate on day `d`. -/
def is_send (s x : String) (d : Nat) (r : EventRecord) : Bool :=
  decide (r.Day = d) && decide (r.UserID = s) && decide (r.CandidateID = x) &&
    decide (r.Source = Source.fresh) && decide (r.Decision = Decision.like)

/-- Number of send events of `(s, x, d)` in a log. -/
def send_count (log : List EventRecord) (s x : String) (d : Nat) : Nat :=
  log.countP (is_send s x d)

/-- Every pending queue entry has a send event in the log. -/
def QLogInv (st : SimState) (log : List EventRecord) : Prop :=
  ∀ x s d, (s, d) ∈ st.incoming_likes x → ∃ r ∈ log, is_send s x d r = true

lemma pc_QLogInv (data : ModelData) (rolls : Nat → ℚ) (day : Nat) (user : String)
    (acc : SimState × List EventRecord) (cr : CandidateInfo) (L : List EventRecord)
    (hinv : QLogInv acc.1 (L ++ acc.2)) :
    QLogInv (process_candidate data rolls day user acc cr).1
      (L ++ (process_candidate data rolls day user acc cr).2) := by
  obtain ⟨r, hlog, hDay, hUser, hCand, hSource, hDec⟩ :=
    process_candidate_log data rolls day user acc cr
  have hold : ∀ x s d, (s, d) ∈ acc.1.incoming_likes x →
      ∃ r' ∈ L ++ (process_candidate data rolls day user acc cr).2,
        is_send s x d r' = true := by
    intro x s d hmem
    obtain ⟨r', hr', hs'⟩ := hinv x s d hmem
    refine ⟨r', ?_, hs'⟩
    rw [hlog, ← List.append_assoc]
    exact List.mem_append_left _ hr'
  intro x s d hmem
  rw [pc_incoming_likes] at hmem
  by_cases h : rolls acc.1.rollIdx < get_prob data user cr.CandidateID
  · rw [if_pos h] at hmem
    by_cases hsrc : cr.Source = Source.incoming
    · rw [if_pos hsrc] at hmem
      by_cases hx : x = user
      · subst hx
        rw [Function.update_same] at hmem
        exact hold _ _ _ ((remove_first_sender_sublist _ _).subset hmem)
      · rw [Function.update_noteq hx] at hmem
        exact hold _ _ _ hmem
    · rw [if_neg hsrc] at hmem
      by_cases hls : user ∈ acc.1.likes_sent cr.CandidateID
      · rw [if_pos hls] at hmem
        exact hold _ _ _ hmem
      · rw [if_neg hls] at hmem
        by_cases hx : x = cr.CandidateID
        · subst hx
          rw [Function.update_same, List.mem_append] at hmem
          rcases hmem with hmem | hmem
          · exact hold _ _ _ hmem
          · simp only [List.mem_singleton, Prod.mk.injEq] at hmem
            obtain ⟨hs, hd⟩ := hmem
            have hrmem : r ∈ L ++ (process_candidate data rolls day user acc cr).2 := by
              rw [hlog, ← List.append_assoc]
              exact List.mem_append_right _ (List.mem_singleton_self r)
            refine ⟨r, hrmem, ?_⟩
            have hfr : cr.Source = Source.fresh := by
              cases hcs : cr.Source
              · exact absurd hcs hsrc
              · rfl
            unfold is_send
            rw [hDay, hUser, hCand, hSource, hfr, hDec, if_pos h, hs, hd]
            simp
        · rw [Function.update_noteq hx] at hmem
          exact hold _ _ _ hmem
  · rw [if_neg h] at hmem
    exact hold _ _ _ hmem

lemma foldl_pc_QLogInv (data : ModelData) (rolls : Nat → ℚ) (day : Nat) (user : String)
    (crs : List CandidateInfo) (acc : SimState × List EventRecord) (L : List EventRecord)
    (hinv : QLogInv acc.1 (L ++ acc.2)) :
    QLogInv (crs.foldl (process_candidate data rolls day user) acc).1
      (L ++ (crs.foldl (process_candidate data rolls day user) acc).2) := by
  induction crs generalizing acc with
  | nil => exact hinv
  | cons cr rest ih =>
      rw [List.foldl_cons]
      exact ih _ (pc_QLogInv data rolls day user acc cr L hinv)

lemma process_turn_QLogInv (cfg : Config) (data : ModelData) (rolls : Nat → ℚ) (day : Nat)
    (st : SimState) (user : String) (L : List EventRecord)
    (hinv : QLogInv st L) :
    QLogInv (process_turn cfg data rolls day st user).1
      (L ++ (process_turn cfg data rolls day st user).2) := by
  unfold process_turn
  exact foldl_pc_QLogInv data rolls day user _ (st, []) L (by simpa using hinv)

lemma process_day_QLogInv (cfg : Config) (data : ModelData) (rolls : Nat → ℚ)
    (order : List String) (day : Nat) (st : SimState) (L : List EventRecord)
    (hinv : QLogInv st L) :
    QLogInv (process_day cfg data rolls order day st).1
      (L ++ (process_day cfg data rolls order day st).2) := by
  unfold process_day
  have haux : ∀ (l : List String) (acc : SimState × List EventRecord),
      QLogInv acc.1 (L ++ acc.2) →
      QLogInv (l.foldl (fun acc user =>
          let r := process_turn cfg data rolls day acc.1 user
          (r.1, acc.2 ++ r.2)) acc).1
        (L ++ (l.foldl (fun acc user =>
          let r := process_turn cfg data rolls day acc.1 user
          (r.1, acc.2 ++ r.2)) acc).2) := by
    intro l
    induction l with
    | nil => intro acc h; exact h
    | cons u rest ih =>
        intro acc h
        rw [List.foldl_cons]
        refine ih _ ?_
        show QLogInv (process_turn cfg data rolls day acc.1 u).1
          (L ++ (acc.2 ++ (process_turn cfg data rolls day acc.1 u).2))
        rw [← List.append_assoc]
        exact process_turn_QLogInv cfg data rolls day acc.1 u (L ++ acc.2) h
  exact haux order (st, []) (by simpa using hinv)

lemma run_QLogInv (cfg : Config) (data : ModelData) (shuffle : Nat → List String)
    (rolls : Nat → ℚ) :
    QLogInv (run_tinder_simulation cfg data shuffle rolls).1
      (run_tinder_simulation cfg data shuffle rolls).2 := by
  unfold run_tinder_simulation
  have haux : ∀ (l : List Nat) (acc : SimState × List EventRecord),
      QLogInv acc.1 acc.2 →
      QLogInv (l.foldl (fun acc day =>
          let r := process_day cfg data rolls (shuffle day) day acc.1
          (r.1, acc.2 ++ r.2)) acc).1
        (l.foldl (fun acc day =>
          let r := process_day cfg data rolls (shuffle day) day acc.1
          (r.1, acc.2 ++ r.2)) acc).2 := by
    intro l
    induction l with
    | nil => intro acc h; exact h
    | cons dd rest ih =>
        intro acc h
        rw [List.foldl_cons]
        refine ih _ ?_
        show QLogInv (process_day cfg data rolls (shuffle dd) dd acc.1).1
          (acc.2 ++ (process_day cfg data rolls (shuffle dd) dd acc.1).2)
        exact process_day_QLogInv cfg data rolls (shuffle dd) dd acc.1 acc.2 h
  exact haux _ (init_state, []) (fun x s d hmem => by simp [init_state] at hmem)

lemma is_send_fields {s x : String} {d : Nat} {r : EventRecord}
    (h : is_send s x d r = true) :
    r.Day = d ∧ r.UserID = s ∧ r.CandidateID = x := by
  unfold is_send at h
  simp only [Bool.and_eq_true, decide_eq_true_eq] at h
  exact ⟨h.1.1.1.1, h.1.1.1.2, h.1.1.2⟩

lemma candidate_info_map_id (cfg : Config) (data : ModelData) (st : SimState) (user : String)
    (day : Nat) :
    (candidate_info cfg data st user day).map (fun cr => cr.CandidateID) =
      candidate_pool data st user := by
  unfold candidate_info
  rw [List.map_map]
  have h : ∀ c ∈ candidate_pool data st user,
      ((fun cr : CandidateInfo => cr.CandidateID) ∘ (fun cand =>
        match incoming_for_user (st.incoming_likes user) cand with
        | some sd =>
            { CandidateID := cand, Score := get_prob data user cand,
              Source := Source.incoming, SentDay := sd }
        | none =>
            let q : Nat := (st.incoming_likes cand).length
            { CandidateID := cand,
              Score := get_prob data user cand *
                (1 / (1 + cfg.weight_queue_penalty * (q : ℚ))) *
                (get_reciprocal data user cand) ^ cfg.weight_reciprocal,
              Source := Source.fresh, SentDay := day })) c = id c := by
    intro c _
    cases hifu : incoming_for_user (st.incoming_likes user) c <;> simp [hifu]
  rw [List.map_congr_left h, List.map_id]

lemma pool_nodup (data : ModelData) (st : SimState) (user : String)
    (hwnd : data.all_women_ids.Nodup) (hmnd : data.all_men_ids.Nodup) :
    (candidate_pool data st user).Nodup := by
  unfold candidate_pool
  split
  · exact hmnd.filter _
  · exact hwnd.filter _

lemma selected_ids_nodup (cfg : Config) (data : ModelData) (st : SimState) (user : String)
    (day : Nat) (hwnd : data.all_women_ids.Nodup) (hmnd : data.all_men_ids.Nodup) :
    ((selected_candidates cfg data st user day).map (fun cr => cr.CandidateID)).Nodup := by
  have hperm := (rank_perm (candidate_info cfg data st user day)).map
    (fun cr : CandidateInfo => cr.CandidateID)
  rw [candidate_info_map_id] at hperm
  have h1 : ((rank (candidate_info cfg data st user day)).map
      (fun cr => cr.CandidateID)).Nodup :=
    hperm.nodup_iff.mpr (pool_nodup data st user hwnd hmnd)
  rw [selected_candidates, List.map_take]
  exact List.Nodup.sublist (List.take_sublist _ _) h1

lemma countP_cid_eq_count (l : List EventRecord) (x : String) :
    l.countP (fun r => decide (r.CandidateID = x)) =
      (l.map (fun r => r.CandidateID)).count x := by
  induction l with
  | nil => rfl
  | cons r rest ih =>
      rw [List.countP_cons, List.map_cons, List.count_cons, ih]
      by_cases hc : r.CandidateID = x <;> simp [hc]

lemma foldl_pc_user_day (data : ModelData) (rolls : Nat → ℚ) (day : Nat) (user : String)
    (crs : List CandidateInfo) (acc : SimState × List EventRecord) (r : EventRecord)
    (hr : r ∈ (crs.foldl (process_candidate data rolls day user) acc).2) :
    r ∈ acc.2 ∨ (r.UserID = user ∧ r.Day = day) := by
  induction crs generalizing acc with
  | nil => exact Or.inl hr
  | cons cr rest ih =>
      rw [List.foldl_cons] at hr
      rcases ih _ hr with hmem | hud
      · obtain ⟨r0, hlog, hDay, hUser, _, _, _⟩ :=
          process_candidate_log data rolls day user acc cr
        rw [hlog, List.mem_append] at hmem
        rcases hmem with hmem | hmem
        · exact Or.inl hmem
        · rw [List.mem_singleton] at hmem
          subst hmem
          exact Or.inr ⟨hUser, hDay⟩
      · exact Or.inr hud

lemma turn_send_count_le (cfg : Config) (data : ModelData) (rolls : Nat → ℚ) (day : Nat)
    (st : SimState) (user : String) (s x : String) (d : Nat)
    (hwnd : data.all_women_ids.Nodup) (hmnd : data.all_men_ids.Nodup) :
    send_count (process_turn cfg data rolls day st user).2 s x d ≤ 1 := by
  unfold send_count
  have hmono : (process_turn cfg data rolls day st user).2.countP (is_send s x d) ≤
      (process_turn cfg data rolls day st user).2.countP
        (fun r => decide (r.CandidateID = x)) := by
    apply List.countP_mono_left
    intro r _ hsend
    simp only [decide_eq_true_eq]
    exact (is_send_fields hsend).2.2
  refine le_trans hmono ?_
  rw [countP_cid_eq_count]
  have hmap : (process_turn cfg data rolls day st user).2.map (fun r => r.CandidateID) =
      (selected_candidates cfg data st user day).map (fun cr => cr.CandidateID) := by
    unfold process_turn
    rw [foldl_pc_log_map]
    simp
  rw [hmap]
  exact List.nodup_iff_count_le_one.mp (selected_ids_nodup cfg data st user day hwnd hmnd) x

lemma turn_send_count_zero (cfg : Config) (data : ModelData) (rolls : Nat → ℚ) (day : Nat)
    (st : SimState) (user : String) (s x : String) (d : Nat)
    (hne : s ≠ user ∨ d ≠ day) :
    send_count (process_turn cfg data rolls day st user).2 s x d = 0 := by
  unfold send_count
  rw [List.countP_eq_zero]
  intro r hr hsend
  obtain ⟨hDay, hUser, _⟩ := is_send_fields hsend
  unfold process_turn at hr
  rcases foldl_pc_user_day data rolls day user _ (st, []) r hr with hmem | ⟨hu, hd2⟩
  · simp at hmem
  · rcases hne with hne | hne
    · exact hne (hUser.symm.trans hu)
    · exact hne (hDay.symm.trans hd2)

lemma day_aux_zero (cfg : Config) (data : ModelData) (rolls : Nat → ℚ) (day : Nat)
    (l : List String) (acc : SimState × List EventRecord) (s x : String) (d : Nat)
    (hs : ∀ u ∈ l, s ≠ u) :
    send_count ((l.foldl (fun acc user =>
        let r := process_turn cfg data rolls day acc.1 user
        (r.1, acc.2 ++ r.2)) acc).2) s x d = send_count acc.2 s x d := by
  induction l generalizing acc with
  | nil => rfl
  | cons u rest ih =>
      rw [List.foldl_cons]
      rw [ih _ (fun u' hu' => hs u' (List.mem_cons_of_mem _ hu'))]
      show send_count (acc.2 ++ (process_turn cfg data rolls day acc.1 u).2) s x d = _
      unfold send_count
      rw [List.countP_append]
      have h0 := turn_send_count_zero cfg data rolls day acc.1 u s x d
        (Or.inl (hs u (List.mem_cons_self _ _)))
      unfold send_count at h0
      omega

lemma day_aux_wrongday (cfg : Config) (data : ModelData) (rolls : Nat → ℚ) (day : Nat)
    (l : List String) (acc : SimState × List EventRecord) (s x : String) (d : Nat)
    (hd : d ≠ day) :
    send_count ((l.foldl (fun acc user =>
        let r := process_turn cfg data rolls day acc.1 user
        (r.1, acc.2 ++ r.2)) acc).2) s x d = send_count acc.2 s x d := by
  induction l generalizing acc with
  | nil => rfl
  | cons u rest ih =>
      rw [List.foldl_cons, ih]
      show send_count (acc.2 ++ (process_turn cfg data rolls day acc.1 u).2) s x d = _
      unfold send_count
      rw [List.countP_append]
      have h0 := turn_send_count_zero cfg data rolls day acc.1 u s x d (Or.inr hd)
      unfold send_count at h0
      omega

lemma day_aux_le (cfg : Config) (data : ModelData) (rolls : Nat → ℚ) (day : Nat)
    (l : List String) (acc : SimState × List EventRecord) (s x : String) (d : Nat)
    (hwnd : data.all_women_ids.Nodup) (hmnd : data.all_men_ids.Nodup) (hnd : l.Nodup) :
    send_count ((l.foldl (fun acc user =>
        let r := process_turn cfg data rolls day acc.1 user
        (r.1, acc.2 ++ r.2)) acc).2) s x d ≤ send_count acc.2 s x d + 1 := by
  induction l generalizing acc with
  | nil => exact Nat.le_succ _
  | cons u rest ih =>
      rw [List.foldl_cons]
      obtain ⟨hu_rest, hnd_rest⟩ := List.nodup_cons.mp hnd
      by_cases hsu : s = u
      · rw [day_aux_zero cfg data rolls day rest _ s x d
          (fun u' hu' heq => hu_rest (by rw [← heq, hsu] at hu'; exact hu'))]
        show send_count (acc.2 ++ (process_turn cfg data rolls day acc.1 u).2) s x d ≤ _
        unfold send_count
        rw [List.countP_append]
        have h1 := turn_send_count_le cfg data rolls day acc.1 u s x d hwnd hmnd
        unfold send_count at h1
        omega
      · have h0 : send_count ((fun acc user =>
            let r := process_turn cfg data rolls day acc.1 user
            (r.1, acc.2 ++ r.2)) acc u).2 s x d = send_count acc.2 s x d := by
          show send_count (acc.2 ++ (process_turn cfg data rolls day acc.1 u).2) s x d = _
          unfold send_count
          rw [List.countP_append]
          have hz := turn_send_count_zero cfg data rolls day acc.1 u s x d (Or.inl hsu)
          unfold send_count at hz
          omega
        calc ((rest.foldl (fun acc user =>
              let r := process_turn cfg data rolls day acc.1 user
              (r.1, acc.2 ++ r.2)) _).2).countP (is_send s x d)
            ≤ send_count ((fun acc user =>
              let r := process_turn cfg data rolls day acc.1 user
              (r.1, acc.2 ++ r.2)) acc u).2 s x d + 1 := ih _ hnd_rest
          _ = send_count acc.2 s x d + 1 := by rw [h0]

lemma process_day_send_count_le (cfg : Config) (data : ModelData) (rolls : Nat → ℚ)
    (order : List String) (day : Nat) (st : SimState) (s x : String) (d : Nat)
    (hwnd : data.all_women_ids.Nodup) (hmnd : data.all_men_ids.Nodup)
    (hnd : order.Nodup) :
    send_count (process_day cfg data rolls order day st).2 s x d ≤ 1 := by
  unfold process_day
  have h := day_aux_le cfg data rolls day order (st, []) s x d hwnd hmnd hnd
  simpa [send_count] using h

lemma process_day_send_count_zero (cfg : Config) (data : ModelData) (rolls : Nat → ℚ)
    (order : List String) (day : Nat) (st : SimState) (s x : String) (d : Nat)
    (hd : d ≠ day) :
    send_count (process_day cfg data rolls order day st).2 s x d = 0 := by
  unfold process_day
  have h := day_aux_wrongday cfg data rolls day order (st, []) s x d hd
  simpa [send_count] using h

lemma run_aux_notmem (cfg : Config) (data : ModelData) (shuffle : Nat → List String)
    (rolls : Nat → ℚ) (l : List Nat) (acc : SimState × List EventRecord)
    (s x : String) (d : Nat) (hd : d ∉ l) :
    send_count ((l.foldl (fun acc day =>
        let r := process_day cfg data rolls (shuffle day) day acc.1
        (r.1, acc.2 ++ r.2)) acc).2) s x d = send_count acc.2 s x d := by
  induction l generalizing acc with
  | nil => rfl
  | cons dd rest ih =>
      rw [List.foldl_cons, ih _ (fun hmem => hd (List.mem_cons_of_mem _ hmem))]
      show send_count (acc.2 ++ (process_day cfg data rolls (shuffle dd) dd acc.1).2) s x d = _
      unfold send_count
      rw [List.countP_append]
      have h0 := process_day_send_count_zero cfg data rolls (shuffle dd) dd acc.1 s x d
        (fun heq => hd (heq ▸ List.mem_cons_self _ _))
      unfold send_count at h0
      omega

lemma run_aux_le (cfg : Config) (data : ModelData) (shuffle : Nat → List String)
    (rolls : Nat → ℚ) (l : List Nat) (acc : SimState × List EventRecord)
    (s x : String) (d : Nat)
    (hwnd : data.all_women_ids.Nodup) (hmnd : data.all_men_ids.Nodup)
    (hsh : ∀ dd ∈ l, (shuffle dd).Nodup) (hnd : l.Nodup) :
    send_count ((l.foldl (fun acc day =>
        let r := process_day cfg data rolls (shuffle day) day acc.1
        (r.1, acc.2 ++ r.2)) acc).2) s x d ≤ send_count acc.2 s x d + 1 := by
  induction l generalizing acc with
  | nil => exact Nat.le_succ _
  | cons dd rest ih =>
      rw [List.foldl_cons]
      obtain ⟨hdd_rest, hnd_rest⟩ := List.nodup_cons.mp hnd
      by_cases hddd : d = dd
      · rw [run_aux_notmem cfg data shuffle rolls rest _ s x d
          (fun hmem => hdd_rest (hddd ▸ hmem))]
        show send_count (acc.2 ++ (process_day cfg data rolls (shuffle dd) dd acc.1).2)
          s x d ≤ _
        unfold send_count
        rw [List.countP_append]
        have h1 := process_day_send_count_le cfg data rolls (shuffle dd) dd acc.1 s x d
          hwnd hmnd (hsh dd (List.mem_cons_self _ _))
        unfold send_count at h1
        omega
      · have h0 : send_count ((fun acc day =>
            let r := process_day cfg data rolls (shuffle day) day acc.1
            (r.1, acc.2 ++ r.2)) acc dd).2 s x d = send_count acc.2 s x d := by
          show send_count (acc.2 ++ (process_day cfg data rolls (shuffle dd) dd acc.1).2)
            s x d = _
          unfold send_count
          rw [List.countP_append]
          have hz := process_day_send_count_zero cfg data rolls (shuffle dd) dd acc.1
            s x d hddd
          unfold send_count at hz
          omega
        calc ((rest.foldl (fun acc day =>
              let r := process_day cfg data rolls (shuffle day) day acc.1
              (r.1, acc.2 ++ r.2)) _).2).countP (is_send s x d)
            ≤ send_count ((fun acc day =>
              let r := process_day cfg data rolls (shuffle day) day acc.1
              (r.1, acc.2 ++ r.2)) acc dd).2 s x d + 1 :=
              ih _ (fun dd' hdd' => hsh dd' (List.mem_cons_of_mem _ hdd')) hnd_rest
          _ = send_count acc.2 s x d + 1 := by rw [h0]

lemma run_send_count_le_one (cfg : Config) (data : ModelData) (shuffle : Nat → List String)
    (rolls : Nat → ℚ) (s x : String) (d : Nat)
    (hwnd : data.all_women_ids.Nodup) (hmnd : data.all_men_ids.Nodup)
    (hsh : ∀ dd, (shuffle dd).Nodup) :
    send_count (run_tinder_simulation cfg data shuffle rolls).2 s x d ≤ 1 := by
  unfold run_tinder_simulation
  have h := run_aux_le cfg data shuffle rolls (List.range' 1 cfg.num_days) (init_state, [])
    s x d hwnd hmnd (fun dd _ => hsh dd) (List.nodup_range' 1 cfg.num_days)
  simpa [send_count] using h

/-- **C6 (counterexample)**: a two-day run with one woman and one man in which
`M1` likes `W1` fresh on day 1 (entry `(M1,1)`), `W1` passes on day 1, `M1`
re-likes `W1` fresh on day 2 (duplicate entry `(M1,2)`), and then `W1` likes
the incoming `M1`, forming a match and removing only the *earliest* entry
`(M1,1)`.  At run end the entry `("M1", 2)` is still pending in `W1`'s queue,
yet the log's fourth record — after the third record, the send event of that
entry — shows the recipient `W1` resolving sender `M1` with a Like decision.
So "the recipient never subsequently resolved that sender with a Like
decision" fails for this end-state entry. -/
theorem claim6_counterexample :
    ("M1", 2) ∈ (run_tinder_simulation ⟨2, 1, mkRat 1 2, 1⟩
      ⟨["W1"], ["M1"], fun _ _ => mkRat 1 2, fun _ _ => 1⟩
      (fun _ => ["M1", "W1"]) (fun i => if i = 1 then mkRat 3 4 else 0)).1.incoming_likes
        "W1" ∧
    (run_tinder_simulation ⟨2, 1, mkRat 1 2, 1⟩
      ⟨["W1"], ["M1"], fun _ _ => mkRat 1 2, fun _ _ => 1⟩
      (fun _ => ["M1", "W1"]) (fun i => if i = 1 then mkRat 3 4 else 0)).2.map
        (fun r => (r.Day, r.UserID, r.CandidateID, r.Source, r.Decision)) =
      [(1, "M1", "W1", Source.fresh, Decision.like),
       (1, "W1", "M1", Source.incoming, Decision.pass),
       (2, "M1", "W1", Source.fresh, Decision.like),
       (2, "W1", "M1", Source.incoming, Decision.like)] := by
  decide

/-- **C6 (amended)**: for every pending-like entry `(s, d)` held by `x` at run
end there is *exactly one* prior event in the log where that like was sent
(`s` deciding Like on `x` as a fresh candidate on day `d`); but a Like
resolution by the recipient removes only the earliest pending entry of that
sender, so the recipient may well have subsequently resolved that sender with
a Like while a later duplicate entry stays pending. -/
theorem claim6_queue_conservation (cfg : Config) (data : ModelData)
    (shuffle : Nat → List String) (rolls : Nat → ℚ)
    (hwnd : data.all_women_ids.Nodup) (hmnd : data.all_men_ids.Nodup)
    (hsh : ∀ dd, (shuffle dd).Nodup) :
    (∀ x s d, (s, d) ∈ (run_tinder_simulation cfg data shuffle rolls).1.incoming_likes x →
      send_count (run_tinder_simulation cfg data shuffle rolls).2 s x d = 1) ∧
    (∀ (data2 : ModelData) (rolls2 : Nat → ℚ) (day : Nat) (user : String)
      (acc : SimState × List EventRecord) (cr : CandidateInfo),
      cr.Source = Source.incoming →
      rolls2 acc.1.rollIdx < get_prob data2 user cr.CandidateID →
      (process_candidate data2 rolls2 day user acc cr).1.incoming_likes user =
        remove_first_sender (acc.1.incoming_likes user) cr.CandidateID) := by
  constructor
  · intro x s d hmem
    obtain ⟨r, hr, hsend⟩ := run_QLogInv cfg data shuffle rolls x s d hmem
    have hge : 0 < send_count (run_tinder_simulation cfg data shuffle rolls).2 s x d := by
      unfold send_count
      exact List.countP_pos_iff.mpr ⟨r, hr, hsend⟩
    have hle := run_send_count_le_one cfg data shuffle rolls s x d hwnd hmnd hsh
    omega
  · intro data2 rolls2 day user acc cr hsrc h
    by_cases hls : user ∈ acc.1.likes_sent cr.CandidateID <;>
      simp [process_candidate, h, hsrc, hls]

/-- Witness for `claim6_queue_conservation` at a concrete input. -/
theorem claim6_queue_conservation_witness :
    (["W1"] : List String).Nodup ∧ (["M1"] : List String).Nodup ∧
    ((∀ x s d, (s, d) ∈ (run_tinder_simulation ⟨2, 1, mkRat 1 2, 1⟩
        ⟨["W1"], ["M1"], fun _ _ => mkRat 1 2, fun _ _ => 1⟩
        (fun _ => ["M1", "W1"])
        (fun i => if i = 1 then mkRat 3 4 else 0)).1.incoming_likes x →
      send_count (run_tinder_simulation ⟨2, 1, mkRat 1 2, 1⟩
        ⟨["W1"], ["M1"], fun _ _ => mkRat 1 2, fun _ _ => 1⟩
        (fun _ => ["M1", "W1"])
        (fun i => if i = 1 then mkRat 3 4 else 0)).2 s x d = 1) ∧
    (∀ (data2 : ModelData) (rolls2 : Nat → ℚ) (day : Nat) (user : String)
      (acc : SimState × List EventRecord) (cr : CandidateInfo),
      cr.Source = Source.incoming →
      rolls2 acc.1.rollIdx < get_prob data2 user cr.CandidateID →
      (process_candidate data2 rolls2 day user acc cr).1.incoming_likes user =
        remove_first_sender (acc.1.incoming_likes user) cr.CandidateID)) :=
  ⟨by decide, by decide,
    claim6_queue_conservation ⟨2, 1, mkRat 1 2, 1⟩
      ⟨["W1"], ["M1"], fun _ _ => mkRat 1 2, fun _ _ => 1⟩
      (fun _ => ["M1", "W1"]) (fun i => if i = 1 then mkRat 3 4 else 0)
      (by decide) (by decide)
      (fun dd => show (["M1", "W1"] : List String).Nodup by decide)⟩

end DatingSim
